import Mathlib

/-!
Verification of the `sp3` package (SP3 ephemeris parser, time-system
conversions and piecewise-polynomial interpolator) against its
natural-language specification.

Modelling conventions:
* Python `datetime.datetime` values (microsecond precision, UTC tz)
  are modelled as integers counting microseconds from an arbitrary
  fixed origin.  `timedelta.total_seconds()` becomes exact division
  by `1000000` in `ℚ`.
* Python floats are modelled as exact rationals `ℚ` (ideal arithmetic).
* External library functions (astropy's leap-second-aware TAI↔UTC
  conversions, numpy's `polyfit` least-squares routine and `std`, whose
  value is an irrational square root) are parameters of the embedding:
  the theorems quantify over them, and concrete instantiations are used
  in closed witnesses/counterexamples.
-/

namespace Sp3

/-- Microseconds in one second, the resolution of Python datetimes. -/
def usPerSecond : ℤ := 1000000

/-- Mirror of `timedelta.total_seconds()` applied to the difference of two
datetimes (`a - b`), in exact arithmetic: microseconds divided by 10⁶. -/
def total_seconds (a b : ℤ) : ℚ := ((a - b : ℤ) : ℚ) / 1000000

/-- Mirror of `sp3.timesystem.TimeSystem` (src/sp3/timesystem.py, lines 21-29). -/
inductive TimeSystem
  | gps
  | glonass
  | galileo
  | beidou
  | tai
  | utc
  | irnss
  | qzss
deriving DecidableEq, Repr

/-- Mirror of `TimeSystem.time_to_utc` (src/sp3/timesystem.py, lines 31-49).
The astropy leap-second-aware TAI→UTC conversion is the parameter
`taiToUtc` (it is an external library call).  For GPS/IRNSS/QZSS the code
builds a TAI `Time`, adds 19 SI seconds on the TAI scale and converts to
UTC, i.e. `taiToUtc (t + 19 s)`; GLONASS subtracts 3 hours; GALILEO/TAI
convert TAI→UTC; BEIDOU/UTC return the input unchanged. -/
def time_to_utc (taiToUtc : ℤ → ℤ) : TimeSystem → ℤ → ℤ
  | .gps, t => taiToUtc (t + 19 * usPerSecond)
  | .irnss, t => taiToUtc (t + 19 * usPerSecond)
  | .qzss, t => taiToUtc (t + 19 * usPerSecond)
  | .glonass, t => t - 3 * 3600 * usPerSecond
  | .galileo, t => taiToUtc t
  | .tai, t => taiToUtc t
  | .beidou, t => t
  | .utc, t => t

/-- Mirror of `TimeSystem.time_from_utc` (src/sp3/timesystem.py, lines 51-71).
`utcToTai` is astropy's leap-second-aware UTC→TAI conversion.  For
GPS/IRNSS/QZSS the code converts UTC→TAI and subtracts 19 SI seconds;
GLONASS adds 3 hours; GALILEO/TAI convert UTC→TAI; BEIDOU/UTC return the
input unchanged. -/
def time_from_utc (utcToTai : ℤ → ℤ) : TimeSystem → ℤ → ℤ
  | .gps, t => utcToTai t - 19 * usPerSecond
  | .irnss, t => utcToTai t - 19 * usPerSecond
  | .qzss, t => utcToTai t - 19 * usPerSecond
  | .glonass, t => t + 3 * 3600 * usPerSecond
  | .galileo, t => utcToTai t
  | .tai, t => utcToTai t
  | .beidou, t => t
  | .utc, t => t

/-- Triple of rationals modelling a 3-vector of Python floats. -/
abbrev Vec3 := ℚ × ℚ × ℚ

/-- Mirror of `sp3.parse.Record` (src/sp3/parse.py, lines 110-134). -/
structure Record where
  time : ℤ
  position : Vec3
  position_std : Option Vec3
  velocity : Option Vec3
  velocity_std : Option Vec3
  clock : Option ℚ
  clock_std : Option ℚ
  clock_rate : Option ℚ
  clock_rate_std : Option ℚ
  clock_event : Bool
  clock_predicted : Bool
  xy_correlation : Option ℚ
  xz_correlation : Option ℚ
  xc_correlation : Option ℚ
  yz_correlation : Option ℚ
  yc_correlation : Option ℚ
  zc_correlation : Option ℚ
  xy_velocity_correlation : Option ℚ
  xz_velocity_correlation : Option ℚ
  xc_velocity_correlation : Option ℚ
  yz_velocity_correlation : Option ℚ
  yc_velocity_correlation : Option ℚ
  zc_velocity_correlation : Option ℚ
deriving DecidableEq, Repr

/-- Mirror of `sp3.parse.Satellite` (src/sp3/parse.py, lines 137-141). -/
structure Satellite where
  id : List ℕ
  accuracy : Option ℚ
  records : List Record
deriving DecidableEq, Repr

/-- Mirror of the `Record` construction performed for a `P` line by
`Product.from_bytes` (src/sp3/parse.py, lines 393-444).  Arguments are the
regex match groups after Python conversion: `x y z` are the parsed km
floats of groups 2-4; `clk` is group 5 (`none` when the group is missing
or blank, otherwise the parsed microsecond float); `e1 e2 e3` are the
position standard-deviation exponents of groups 6-8 (`none` when missing
or blank; the fields are digit-only, hence `ℕ`); `ce` is the clock
standard-deviation exponent of group 9; `flagE`/`flagP` are the
single-character groups 10-11 (`none` when missing). -/
def record_from_position_line (epoch : ℤ) (x y z : ℚ) (clk : Option ℚ)
    (e1 e2 e3 : Option ℕ) (ce : Option ℕ) (flagE flagP : Option Char)
    (position_base clock_base : ℚ) : Record where
  time := epoch
  position := (x * 1000, y * 1000, z * 1000)
  position_std :=
    match e1, e2, e3 with
    | some a, some b, some c =>
        some (position_base ^ a * (1 / 1000), position_base ^ b * (1 / 1000),
          position_base ^ c * (1 / 1000))
    | _, _, _ => none
  velocity := none
  velocity_std := none
  clock := clk.map (fun v => v * (1 / 1000000))
  clock_std := ce.map (fun e => clock_base ^ e * (1 / 10 ^ 12))
  clock_rate := none
  clock_rate_std := none
  clock_event := flagE == some 'E'
  clock_predicted := flagP == some 'P'
  xy_correlation := none
  xz_correlation := none
  xc_correlation := none
  yz_correlation := none
  yc_correlation := none
  zc_correlation := none
  xy_velocity_correlation := none
  xz_velocity_correlation := none
  xc_velocity_correlation := none
  yz_velocity_correlation := none
  yc_velocity_correlation := none
  zc_velocity_correlation := none

/-- Concrete record used by closed counterexamples and witnesses. -/
def sampleRecord : Record :=
  record_from_position_line 0 1 2 3 none none none none none none none 2 2

/-- Mirror of the epoch handling of `Product.from_bytes`
(src/sp3/parse.py, lines 373-392 with the cross-checks at lines 310-326,
375-376, 393-398 and 482-486): every `*` epoch line is asserted equal to
`start + epoch_index * epoch_interval`, is converted to UTC through the
product's time system, and every satellite receives exactly one record
per epoch, in epoch order.  Hence the k-th record time of every satellite
of a successfully parsed product is `time_to_utc (start + k * interval)`.
The leap-second-aware TAI→UTC conversion is the parameter `taiToUtc`. -/
def epoch_times (ts : TimeSystem) (taiToUtc : ℤ → ℤ) (start interval : ℤ)
    (epochs : ℕ) : List ℤ :=
  (List.range epochs).map fun k : ℕ => time_to_utc taiToUtc ts (start + (k : ℤ) * interval)

/-- Leap-second-style TAI→UTC conversion used by the C6 counterexample:
one leap second (10⁶ μs) is inserted at TAI instant 2·10⁷ μs. -/
def leapTaiToUtc (t : ℤ) : ℤ := if t < 20000000 then t else t - 1000000

/-- Whitespace bytes removed by Python `bytes.strip()` with no argument
(space, tab, newline, carriage return, vertical tab, form feed). -/
def isSpaceByte (b : ℕ) : Bool :=
  b == 32 || b == 9 || b == 10 || b == 13 || b == 11 || b == 12

/-- Mirror of Python `bytes.strip()`: drop whitespace from both ends. -/
def stripBytes (l : List ℕ) : List ℕ :=
  ((l.dropWhile isSpaceByte).reverse.dropWhile isSpaceByte).reverse

/-- Mirror of the comment handling of `Product.from_bytes`
(src/sp3/parse.py, lines 368-372): the content of a `/*` line is
whitespace-stripped and appended to `product.comments` only when the
stripped content is non-empty. -/
def add_comment (comments : List (List ℕ)) (content : List ℕ) : List (List ℕ) :=
  let c := stripBytes content
  if c.length > 0 then comments ++ [c] else comments

/-- Comments accumulated, in order, over the `/*` line contents of a file. -/
def comments_of (lines : List (List ℕ)) : List (List ℕ) :=
  lines.foldl add_comment []

/-- Record with only a time and a position, every optional field absent;
used to build concrete inputs. -/
def mkRecord (t : ℤ) (p : Vec3) : Record where
  time := t
  position := p
  position_std := none
  velocity := none
  velocity_std := none
  clock := none
  clock_std := none
  clock_rate := none
  clock_rate_std := none
  clock_event := false
  clock_predicted := false
  xy_correlation := none
  xz_correlation := none
  xc_correlation := none
  yz_correlation := none
  yc_correlation := none
  zc_correlation := none
  xy_velocity_correlation := none
  xz_velocity_correlation := none
  xc_velocity_correlation := none
  yz_velocity_correlation := none
  yc_velocity_correlation := none
  zc_velocity_correlation := none

/-- Strictly ascending record times. -/
def strictlyAscending (l : List Record) : Prop :=
  l.Pairwise fun a b => a.time < b.time

/-- Mirror of one step of the forward concatenation in `load`
(src/sp3/__init__.py, lines 307-310, taken when `offset ≥ 0`): a fetched
record is appended iff the accumulated deque is empty or the record's
time is strictly greater than the last accumulated time; otherwise it is
left out. -/
def append_step (acc : List Record) (r : Record) : List Record :=
  match acc.getLast? with
  | none => acc ++ [r]
  | some l => if l.time < r.time then acc ++ [r] else acc

/-- Mirror of the forward concatenation loop in `load`
(src/sp3/__init__.py, lines 307-310). -/
def merge_forward (acc : List Record) (incoming : List Record) : List Record :=
  incoming.foldl append_step acc

/-- Mirror of one step of the backward concatenation in `load`
(src/sp3/__init__.py, lines 303-306, taken when `offset < 0`): a fetched
record is prepended iff the deque is empty or the record's time is
strictly smaller than the first accumulated time. -/
def prepend_step (acc : List Record) (r : Record) : List Record :=
  match acc.head? with
  | none => r :: acc
  | some f => if r.time < f.time then r :: acc else acc

/-- Mirror of the backward concatenation loop in `load`
(src/sp3/__init__.py, lines 303-306): the fetched records are iterated in
reverse order. -/
def merge_backward (acc : List Record) (incoming : List Record) : List Record :=
  incoming.reverse.foldl prepend_step acc

/-- Record with time 0 and position (1, 2, 3). -/
def recA : Record := mkRecord 0 (1, 2, 3)

/-- Record with time 0 and position (4, 5, 6): same time as `recA`,
different payload. -/
def recB : Record := mkRecord 0 (4, 5, 6)

/-- Parse failure raised when a positive accuracy exponent occurs after
all declared satellites already received one
(src/sp3/parse.py, lines 357-360). -/
inductive ParseError
  | tooManyAccuracyFields
deriving DecidableEq, Repr

/-- Accuracy stored for a non-blank exponent `e`
(src/sp3/parse.py, lines 351-355): `none` when `e = 0`, else `2^e / 1000`
metres.  The exponent field is digit-only, hence `ℕ`. -/
def accuracy_of_exponent (e : ℕ) : Option ℚ :=
  if e = 0 then none else some (2 ^ e / 1000)

/-- Satellite list with the accuracy of the `n`-th entry replaced. -/
def set_accuracy : List Satellite → ℕ → Option ℚ → List Satellite
  | [], _, _ => []
  | s :: rest, 0, a => { s with accuracy := a } :: rest
  | s :: rest, n + 1, a => s :: set_accuracy rest n a

/-- Mirror of the `++` accuracy-line handling of `Product.from_bytes`
(src/sp3/parse.py, lines 340-360): the 3-byte slices of the accuracy
lines are processed in order (`none` models a blank slice, skipped
without consuming a satellite); a non-blank exponent is assigned to the
satellite at `idx` when one remains, advancing `idx`; an exponent beyond
the satellite list raises when positive and is ignored when zero. -/
def apply_accuracies (sats : List Satellite) (idx : ℕ) :
    List (Option ℕ) → Except ParseError (List Satellite)
  | [] => .ok sats
  | none :: rest => apply_accuracies sats idx rest
  | some e :: rest =>
      if idx < sats.length then
        apply_accuracies (set_accuracy sats idx (accuracy_of_exponent e)) (idx + 1) rest
      else if 0 < e then .error .tooManyAccuracyFields
      else apply_accuracies sats idx rest

/-- Satellite with the given id, no accuracy and no records, as built by
the `+` header lines (src/sp3/parse.py, lines 327-339). -/
def mkSatellite (i : List ℕ) : Satellite := ⟨i, none, []⟩

/-- Concrete satellite `G01`. -/
def satG01 : Satellite := mkSatellite [71, 48, 49]

/-- Concrete satellite `G02`. -/
def satG02 : Satellite := mkSatellite [71, 48, 50]

/-- Errors raised by `narrowed_records_to_piecewise_polynomial`
(src/sp3/__init__.py, lines 157-160): the failed `assert` statements on
the parameters are `invalidParameters`, the explicit record-count check
is `insufficientRecords` (the spec's names for these failures). -/
inductive BuildError
  | invalidParameters
  | insufficientRecords
deriving DecidableEq, Repr

/-- Mirror of the parameter validation of
`narrowed_records_to_piecewise_polynomial` (src/sp3/__init__.py, lines
157-160) over Python's signed integers: `assert degree >= 0`, then
`assert window * 2 + 1 > degree`, then
`if len(records) < window * 2 + 1: raise`.  Returns the failure these
checks produce, if any. -/
def builder_checks (window degree : ℤ) (n : ℕ) : Option BuildError :=
  if degree < 0 then some .invalidParameters
  else if ¬ (window * 2 + 1 > degree) then some .invalidParameters
  else if (n : ℤ) < window * 2 + 1 then some .insufficientRecords
  else none

/-- Zero 3-vector. -/
def vzero : Vec3 := (0, 0, 0)

/-- Componentwise sum. -/
def vadd (a b : Vec3) : Vec3 := (a.1 + b.1, a.2.1 + b.2.1, a.2.2 + b.2.2)

/-- Componentwise difference. -/
def vsub (a b : Vec3) : Vec3 := (a.1 - b.1, a.2.1 - b.2.1, a.2.2 - b.2.2)

/-- Componentwise product. -/
def vmulv (a b : Vec3) : Vec3 := (a.1 * b.1, a.2.1 * b.2.1, a.2.2 * b.2.2)

/-- Componentwise quotient. -/
def vdivv (a b : Vec3) : Vec3 := (a.1 / b.1, a.2.1 / b.2.1, a.2.2 / b.2.2)

/-- Scalar multiple. -/
def vsmul (q : ℚ) (a : Vec3) : Vec3 := (q * a.1, q * a.2.1, q * a.2.2)

/-- Sum of a list of 3-vectors. -/
def vsum (l : List Vec3) : Vec3 := l.foldl vadd vzero

/-- Mirror of `numpy.mean(·, axis=0)` in exact arithmetic. -/
def npMean (l : List Vec3) : Vec3 := vsmul (1 / (l.length : ℚ)) (vsum l)

/-- Python slice `l[a:b]` for `0 ≤ a ≤ b ≤ len(l)` (the builder only
slices with in-range non-negative bounds when `window ≥ 1`). -/
def sliceL (l : List α) (a b : ℕ) : List α := (l.take b).drop a

/-- Time of the first record (`records[0].time`), 0 on the empty list
(the builder rejects empty inputs before using it). -/
def first_time (records : List Record) : ℤ :=
  match records with
  | [] => 0
  | r :: _ => r.time

/-- Mirror of `relative_record_time` (src/sp3/__init__.py, lines
162-164): seconds from `records[0].time` to each record's time. -/
def relative_record_time (records : List Record) : List ℚ :=
  records.map fun r => total_seconds r.time (first_time records)

/-- Mirror of `numpy.diff` on a 1-d array. -/
def diffL (l : List ℚ) : List ℚ := List.zipWith (fun a b => b - a) l l.tail

/-- Seconds from `records[0].time` to `records[k].time` (the spec's
`t_k`). -/
def t_rel (records : List Record) (k : ℕ) : ℚ :=
  total_seconds ((records.getD k (mkRecord 0 vzero)).time) (first_time records)

/-- Mirror of the per-interval least-squares pipeline of
`narrowed_records_to_piecewise_polynomial` (src/sp3/__init__.py, lines
171-188) on the position samples: for each interval `i` the `2w+1` local
samples are recentred around `offset[i]`, normalised by their mean and
standard deviation, fitted, then de-normalised (`* std`, mean added to
the degree-0 coefficient).  `polyfit` is numpy's least-squares fit
(external; it returns the `d+1` coefficients in ascending degree order)
and `std` is `numpy.std(·, axis=0)` (external; its value is an irrational
square root).  The result is indexed `[degree][interval]` — the code's
array after the `(1, 0, 2)` transpose of line 187; the transpose and the
de-normalisation are folded into this indexed form, entrywise equal to
the code's. -/
def fit_coefficients (polyfit : ℕ → List ℚ → List Vec3 → List Vec3)
    (std : List Vec3 → Vec3) (rrt : List ℚ) (values : List Vec3)
    (offset : List ℚ) (w d k : ℕ) : List (List Vec3) :=
  (List.range (d + 1)).map fun kk =>
    (List.range k).map fun i =>
      let wts := sliceL rrt i (i + 2 * w + 1)
      let wvs := sliceL values i (i + 2 * w + 1)
      let m := npMean wvs
      let s := std wvs
      let c := offset.getD i 0
      let raw := polyfit d (wts.map fun t => t - c)
        (wvs.map fun v => vdivv (vsub v m) s)
      vadd (vmulv (raw.getD kk vzero) s) (if kk = 0 then m else vzero)

/-- Mirror of the duplicated velocity fit loop of
`narrowed_records_to_piecewise_polynomial` (src/sp3/__init__.py, lines
190-212), which repeats the position pipeline verbatim on the velocity
samples. -/
def velocity_fit_coefficients (polyfit : ℕ → List ℚ → List Vec3 → List Vec3)
    (std : List Vec3 → Vec3) (rrt : List ℚ) (values : List Vec3)
    (offset : List ℚ) (w d k : ℕ) : List (List Vec3) :=
  (List.range (d + 1)).map fun kk =>
    (List.range k).map fun i =>
      let wts := sliceL rrt i (i + 2 * w + 1)
      let wvs := sliceL values i (i + 2 * w + 1)
      let m := npMean wvs
      let s := std wvs
      let c := offset.getD i 0
      let raw := polyfit d (wts.map fun t => t - c)
        (wvs.map fun v => vdivv (vsub v m) s)
      vadd (vmulv (raw.getD kk vzero) s) (if kk = 0 then m else vzero)

/-- Mirror of `numpy.polynomial.polynomial.polyder` applied along axis 0
of a `[degree][interval]` coefficient array: entry `j` of the result is
`(j+1) · c[j+1]`; a constant (or empty) coefficient axis is zeroed
(`c[:1] * 0`). -/
def polyder (cs : List (List Vec3)) : List (List Vec3) :=
  if cs.length ≤ 1 then cs.map fun row => row.map fun _ => vzero
  else List.zipWith (fun j row => row.map (vsmul (j : ℚ)))
    (List.range' 1 (cs.length - 1)) (cs.drop 1)

/-- Mirror of `PiecewisePolynomial` (src/sp3/__init__.py, lines 60-68).
Times are UTC microseconds; `offset` and `begin` are seconds relative to
`reference_time`; the coefficient arrays are indexed
`[degree][interval]`, each entry the per-dimension 3-vector. -/
structure PiecewisePolynomial where
  minimum_time : ℤ
  maximum_time : ℤ
  reference_time : ℤ
  offset : List ℚ
  begin : List ℚ
  coefficients : List (List Vec3)
  velocity_coefficients : List (List Vec3)
deriving DecidableEq, Repr

/-- Body of `narrowed_records_to_piecewise_polynomial`
(src/sp3/__init__.py, lines 161-223) after the parameter and record-count
checks: offsets, interval boundaries, the position fit, the velocity fit
(when every record has a velocity) or the analytic derivative, and the
bounds `records[window].time` / `records[-window].time`
(index `len - window` for `window ≥ 1`; every theorem below assumes
`window ≥ 1`, as `window = 0` makes `numpy.std` of the one-sample windows
zero and the fit degenerate). -/
def build_unchecked (polyfit : ℕ → List ℚ → List Vec3 → List Vec3)
    (std : List Vec3 → Vec3) (records : List Record)
    (window degree : ℕ) : PiecewisePolynomial :=
  let n := records.length
  let rrt := relative_record_time records
  let offset := sliceL rrt window (n - window)
  let beginL := List.zipWith (fun t d => t - d / 2) offset
    (sliceL (diffL rrt) (window - 1) (n - window - 1))
  let positions := records.map fun r => r.position
  let k := n - 2 * window
  let coefficients := fit_coefficients polyfit std rrt positions offset window degree k
  let velocity_coefficients :=
    if records.all fun r => r.velocity.isSome then
      velocity_fit_coefficients polyfit std rrt
        (records.map fun r => (r.velocity).getD vzero) offset window degree k
    else polyder coefficients
  { minimum_time := (records.getD window (mkRecord 0 vzero)).time
    maximum_time := (records.getD (n - window) (mkRecord 0 vzero)).time
    reference_time := first_time records
    offset := offset
    begin := beginL
    coefficients := coefficients
    velocity_coefficients := velocity_coefficients }

/-- Mirror of `narrowed_records_to_piecewise_polynomial`
(src/sp3/__init__.py, lines 152-223) for non-negative `window` and
`degree` (the signed-parameter checks are `builder_checks`): the
`degree ≥ 0` assert holds by the type, the `window * 2 + 1 > degree`
assert and the record-count check fail as in the code, and otherwise the
polynomial is built. -/
def narrowed_records_to_piecewise_polynomial
    (polyfit : ℕ → List ℚ → List Vec3 → List Vec3) (std : List Vec3 → Vec3)
    (records : List Record) (window degree : ℕ) :
    Except BuildError PiecewisePolynomial :=
  if ¬ (window * 2 + 1 > degree) then .error .invalidParameters
  else if records.length < window * 2 + 1 then .error .insufficientRecords
  else .ok (build_unchecked polyfit std records window degree)

/-- Failure raised by `PiecewisePolynomial.__call__`
(src/sp3/__init__.py, lines 73-81): the spec's `OutOfRange`, with the
side recorded as in the two exception messages. -/
inductive EvalError
  | outOfRangeBefore
  | outOfRangeAfter
deriving DecidableEq, Repr

/-- Minimum of a batch of query instants (`obstime.min()`); junk 0 on the
empty batch, which astropy does not support. -/
def listMin : List ℤ → ℤ
  | [] => 0
  | x :: xs => xs.foldl min x

/-- Maximum of a batch of query instants (`obstime.max()`). -/
def listMax : List ℤ → ℤ
  | [] => 0
  | x :: xs => xs.foldl max x

/-- Mirror of `numpy.searchsorted(a, v, side="right")` on a sorted array:
the number of elements `≤ v`. -/
def searchsorted_right (l : List ℚ) (v : ℚ) : ℕ :=
  l.countP fun b => decide (b ≤ v)

/-- Mirror of `numpy.polynomial.polynomial.polyval`: `∑ c_k x^k`. -/
def polyval (cs : List ℚ) (x : ℚ) : ℚ := cs.foldr (fun c acc => c + x * acc) 0

/-- Column `i` of a `[degree][interval]` coefficient array: the
coefficient list `cs[:, i, :]` of interval `i`. -/
def column (css : List (List Vec3)) (i : ℕ) : List Vec3 :=
  css.map fun row => row.getD i vzero

/-- Evaluation of the piecewise polynomial at one query instant
(src/sp3/__init__.py, lines 82-149): relative seconds from
`reference_time`, right-insertion binary search in `begin` minus one,
recentring by `offset[index]`, then per-dimension polynomial evaluation
of position and velocity. -/
def eval_at (pp : PiecewisePolynomial) (t : ℤ) : Vec3 × Vec3 :=
  let tau := total_seconds t pp.reference_time
  let i := searchsorted_right pp.begin tau - 1
  let x := tau - pp.offset.getD i 0
  let pcs := column pp.coefficients i
  let vcs := column pp.velocity_coefficients i
  ((polyval (pcs.map fun v => v.1) x, polyval (pcs.map fun v => v.2.1) x,
      polyval (pcs.map fun v => v.2.2) x),
    (polyval (vcs.map fun v => v.1) x, polyval (vcs.map fun v => v.2.1) x,
      polyval (vcs.map fun v => v.2.2) x))

/-- Mirror of `PiecewisePolynomial.__call__` (src/sp3/__init__.py, lines
70-149): raise when the earliest query instant is before `minimum_time`
or the latest is at or after `maximum_time`, otherwise evaluate every
instant. -/
def PiecewisePolynomial.call (pp : PiecewisePolynomial) (obstime : List ℤ) :
    Except EvalError (List (Vec3 × Vec3)) :=
  if listMin obstime < pp.minimum_time then .error .outOfRangeBefore
  else if pp.maximum_time ≤ listMax obstime then .error .outOfRangeAfter
  else .ok (obstime.map (eval_at pp))

/-- Stand-in for numpy's `polyfit` used by closed witnesses and
counterexamples (shape facts do not depend on the fitted values): it
returns `d+1` zero coefficient vectors. -/
def stubPolyfit (d : ℕ) (_ : List ℚ) (_ : List Vec3) : List Vec3 :=
  List.replicate (d + 1) vzero

/-- Stand-in for `numpy.std(·, axis=0)` used by closed witnesses and
counterexamples. -/
def stubStd (_ : List Vec3) : Vec3 := (1, 1, 1)

/-- Three velocity-free records, one second apart. -/
def recsNoVel : List Record :=
  [mkRecord 0 (1, 2, 3), mkRecord 1000000 (4, 5, 6), mkRecord 2000000 (7, 8, 9)]

/-- Record with a velocity sample. -/
def mkRecordV (t : ℤ) (p v : Vec3) : Record := { mkRecord t p with velocity := some v }

/-- Three records carrying velocities, one second apart. -/
def recsVel : List Record :=
  [mkRecordV 0 (1, 2, 3) (1, 0, 0), mkRecordV 1000000 (4, 5, 6) (0, 1, 0),
    mkRecordV 2000000 (7, 8, 9) (0, 0, 1)]

/-- Regex byte class `\d` (ASCII digits; the patterns are bytes
patterns, so `re.UNICODE` does not apply). -/
def isDigitB (b : ℕ) : Bool := 48 ≤ b && b ≤ 57

/-- Regex byte class `\w` on bytes patterns: `[a-zA-Z0-9_]`. -/
def isWordB (b : ℕ) : Bool :=
  isDigitB b || (65 ≤ b && b ≤ 90) || (97 ≤ b && b ≤ 122) || b == 95

/-- Regex byte class `[ \d-]`. -/
def isFloatChar (b : ℕ) : Bool := b == 32 || isDigitB b || b == 45

/-- Regex byte class `[ \d]`. -/
def isSpaceOrDigit (b : ℕ) : Bool := b == 32 || isDigitB b

/-- Byte at position `i` is exactly `c` (false past the end). -/
def byteAt (s : List ℕ) (i c : ℕ) : Bool := s[i]? == some c

/-- Bytes at positions `[a, b)` all exist and satisfy the class `p`. -/
def checkRange (line : List ℕ) (a b : ℕ) (p : ℕ → Bool) : Bool :=
  ((sliceL line a b).length == b - a) && (sliceL line a b).all p

/-- The 14-column float field `([ \d-]{7}\.\d{6})` of the `V`-line
patterns, starting at column `a`. -/
def match_float_field (line : List ℕ) (a : ℕ) : Bool :=
  checkRange line a (a + 7) isFloatChar && byteAt line (a + 7) 46
    && checkRange line (a + 8) (a + 14) isDigitB

/-- The shared 46-column head `^V(\w\d{2})([ \d-]{7}\.\d{6}){3}` that
starts all four `V`-line patterns of `id_to_patterns[b"v"]`
(src/sp3/parse.py, lines 70-83): the tag byte `V`, the satellite id and
the three velocity float fields. -/
def match_v_head (line : List ℕ) : Bool :=
  byteAt line 0 86 && checkRange line 1 2 isWordB && checkRange line 2 4 isDigitB
    && match_float_field line 4 && match_float_field line 18
    && match_float_field line 32

/-- First `V`-line pattern (src/sp3/parse.py, lines 71-73): the 46-column
head with NO end anchor, so any trailing bytes are accepted. -/
def match_v1 (line : List ℕ) : Bool := match_v_head line

/-- Second `V`-line pattern (src/sp3/parse.py, lines 74-76): head, a
fourth (clock-rate) float field, then `(?:$|\s+$)` — only whitespace to
the end. -/
def match_v2 (line : List ℕ) : Bool :=
  match_v_head line
    && (match_float_field line 46 && (line.drop 60).all isSpaceByte)

/-- Third `V`-line pattern (src/sp3/parse.py, lines 77-79): head, 14
blanks in place of the clock-rate field, the four standard-deviation
exponent fields, then only whitespace. -/
def match_v3 (line : List ℕ) : Bool :=
  match_v_head line
    && (checkRange line 46 60 (fun b => b == 32) && byteAt line 60 32
      && checkRange line 61 63 isSpaceOrDigit && byteAt line 63 32
      && checkRange line 64 66 isSpaceOrDigit && byteAt line 66 32
      && checkRange line 67 69 isSpaceOrDigit && byteAt line 69 32
      && checkRange line 70 73 isSpaceOrDigit && (line.drop 73).all isSpaceByte)

/-- Fourth `V`-line pattern (src/sp3/parse.py, lines 80-82): head, the
clock-rate float field, the four standard-deviation exponent fields, then
only whitespace. -/
def match_v4 (line : List ℕ) : Bool :=
  match_v_head line
    && (match_float_field line 46 && byteAt line 60 32
      && checkRange line 61 63 isSpaceOrDigit && byteAt line 63 32
      && checkRange line 64 66 isSpaceOrDigit && byteAt line 66 32
      && checkRange line 67 69 isSpaceOrDigit && byteAt line 69 32
      && checkRange line 70 73 isSpaceOrDigit && (line.drop 73).all isSpaceByte)

/-- Capture shapes of the four `V`-line patterns, as raw byte fields:
4 groups (id, x, y, z), 5 groups (plus clock-rate), 8 groups (plus the
four standard-deviation exponent fields, clock-rate blank) and 9 groups
(clock-rate and the exponent fields).  The satellite id group is omitted
(it is only compared against the header).  The dispatch theorem for
`v_line_match` shows the parser only ever produces the 4-group shape. -/
inductive VLineBytes
  | groups4 (x y z : List ℕ)
  | groups5 (x y z c : List ℕ)
  | groups8 (x y z : List ℕ) (e1 e2 e3 ce : List ℕ)
  | groups9 (x y z c : List ℕ) (e1 e2 e3 ce : List ℕ)
deriving DecidableEq, Repr

/-- Mirror of the pattern dispatch of `Product.from_bytes`
(src/sp3/parse.py, lines 275-279) on a `V` line: the patterns of
`id_to_patterns[b"v"]` are tried in tuple order and the first match wins;
the captured groups are the fixed column slices of the line.  `none`
models the `MalformedLine` failure. -/
def v_line_match (line : List ℕ) : Option VLineBytes :=
  if match_v1 line then
    some (.groups4 (sliceL line 4 18) (sliceL line 18 32) (sliceL line 32 46))
  else if match_v2 line then
    some (.groups5 (sliceL line 4 18) (sliceL line 18 32) (sliceL line 32 46)
      (sliceL line 46 60))
  else if match_v3 line then
    some (.groups8 (sliceL line 4 18) (sliceL line 18 32) (sliceL line 32 46)
      (sliceL line 61 63) (sliceL line 64 66) (sliceL line 67 69)
      (sliceL line 70 73))
  else if match_v4 line then
    some (.groups9 (sliceL line 4 18) (sliceL line 18 32) (sliceL line 32 46)
      (sliceL line 46 60) (sliceL line 61 63) (sliceL line 64 66)
      (sliceL line 67 69) (sliceL line 70 73))
  else none

/-- Mirror of the record mutation performed for a `V` line by
`Product.from_bytes` (src/sp3/parse.py, lines 449-477), given the match:
the velocity is always set from the parsed dm/s floats scaled by `1e-1`;
with 5 or 9 groups the raw parsed clock-rate float is stored; with 9
groups the standard deviations are set when their exponent fields are
non-blank.  `pyFloat` models Python's `float()` on a matched byte field
and `pyNat` the same on the digit-only exponent fields (both external
conversions).  The 5-, 8- and 9-group branches translate source text that
the dispatch can never reach (see the theorem on `v_line_match`). -/
def apply_v_groups (pyFloat : List ℕ → ℚ) (pyNat : List ℕ → ℕ) (r : Record)
    (g : VLineBytes) (position_base clock_base : ℚ) : Record :=
  match g with
  | .groups4 x y z =>
      { r with
        velocity := some (pyFloat x * (1 / 10), pyFloat y * (1 / 10),
          pyFloat z * (1 / 10)) }
  | .groups5 x y z c =>
      { r with
        velocity := some (pyFloat x * (1 / 10), pyFloat y * (1 / 10),
          pyFloat z * (1 / 10))
        clock_rate := some (pyFloat c) }
  | .groups8 x y z _ _ _ _ =>
      { r with
        velocity := some (pyFloat x * (1 / 10), pyFloat y * (1 / 10),
          pyFloat z * (1 / 10)) }
  | .groups9 x y z c e1 e2 e3 ce =>
      { r with
        velocity := some (pyFloat x * (1 / 10), pyFloat y * (1 / 10),
          pyFloat z * (1 / 10))
        clock_rate := some (pyFloat c)
        velocity_std :=
          if 0 < (stripBytes e1).length ∧ 0 < (stripBytes e2).length
              ∧ 0 < (stripBytes e3).length then
            some (position_base ^ pyNat e1 * (1 / 10 ^ 7),
              position_base ^ pyNat e2 * (1 / 10 ^ 7),
              position_base ^ pyNat e3 * (1 / 10 ^ 7))
          else r.velocity_std
        clock_rate_std :=
          if 0 < (stripBytes ce).length then
            some (clock_base ^ pyNat ce * (1 / 10 ^ 16))
          else r.clock_rate_std }

/-- One `V` line applied to the current record: pattern dispatch then the
group handler; `none` is the `MalformedLine` failure. -/
def parse_v_line_step (pyFloat : List ℕ → ℚ) (pyNat : List ℕ → ℕ) (r : Record)
    (line : List ℕ) (position_base clock_base : ℚ) : Option Record :=
  (v_line_match line).map fun g =>
    apply_v_groups pyFloat pyNat r g position_base clock_base

/-- Concrete well-formed `V` line carrying a clock-rate field:
`V G01      1.000000      2.000000      3.000000      5.000000`
(60 columns, exactly the syntax of the second `V`-line pattern). -/
def vLineEx : List ℕ :=
  [86, 71, 48, 49,
    32, 32, 32, 32, 32, 32, 49, 46, 48, 48, 48, 48, 48, 48,
    32, 32, 32, 32, 32, 32, 50, 46, 48, 48, 48, 48, 48, 48,
    32, 32, 32, 32, 32, 32, 51, 46, 48, 48, 48, 48, 48, 48,
    32, 32, 32, 32, 32, 32, 53, 46, 48, 48, 48, 48, 48, 48]

end Sp3

namespace Sp3

/-- Claim C7: GLONASS shifts by ∓3 h, BEIDOU and UTC are identities, and
GPS/IRNSS/QZSS interpret their argument as TAI − 19 s: `time_to_utc` adds
19 s on the TAI scale and then converts TAI→UTC, `time_from_utc` converts
UTC→TAI and then subtracts 19 s; consequently
`time_from_utc (time_to_utc t) = t` for GLONASS, BEIDOU and UTC. -/
theorem timesystem_conversions_c7 (taiToUtc utcToTai : ℤ → ℤ) (t : ℤ) :
    time_to_utc taiToUtc .glonass t = t - 3 * 3600 * usPerSecond ∧
    time_from_utc utcToTai .glonass t = t + 3 * 3600 * usPerSecond ∧
    time_to_utc taiToUtc .beidou t = t ∧
    time_from_utc utcToTai .beidou t = t ∧
    time_to_utc taiToUtc .utc t = t ∧
    time_from_utc utcToTai .utc t = t ∧
    time_to_utc taiToUtc .gps t = taiToUtc (t + 19 * usPerSecond) ∧
    time_to_utc taiToUtc .irnss t = taiToUtc (t + 19 * usPerSecond) ∧
    time_to_utc taiToUtc .qzss t = taiToUtc (t + 19 * usPerSecond) ∧
    time_from_utc utcToTai .gps t = utcToTai t - 19 * usPerSecond ∧
    time_from_utc utcToTai .irnss t = utcToTai t - 19 * usPerSecond ∧
    time_from_utc utcToTai .qzss t = utcToTai t - 19 * usPerSecond ∧
    time_from_utc utcToTai .glonass (time_to_utc taiToUtc .glonass t) = t ∧
    time_from_utc utcToTai .beidou (time_to_utc taiToUtc .beidou t) = t ∧
    time_from_utc utcToTai .utc (time_to_utc taiToUtc .utc t) = t := by
  refine ⟨rfl, rfl, rfl, rfl, rfl, rfl, rfl, rfl, rfl, rfl, rfl, rfl, ?_, rfl, rfl⟩
  simp [time_to_utc, time_from_utc]

/-- Claim C7, witness: concrete instantiation of the theorem (projecting
the GLONASS conversion). -/
theorem timesystem_conversions_c7_witness :
    time_to_utc (fun t => t) .glonass 0 = 0 - 3 * 3600 * usPerSecond :=
  (timesystem_conversions_c7 (fun t => t) (fun t => t) 0).1

/-- Matching the second `V`-line pattern entails matching the first: the
first pattern is the unanchored common head. -/
theorem match_v2_imp (line : List ℕ) (h : match_v2 line = true) :
    match_v1 line = true := by
  rw [match_v1]
  rw [match_v2, Bool.and_eq_true] at h
  exact h.1

/-- Matching the third `V`-line pattern entails matching the first. -/
theorem match_v3_imp (line : List ℕ) (h : match_v3 line = true) :
    match_v1 line = true := by
  rw [match_v1]
  rw [match_v3, Bool.and_eq_true] at h
  exact h.1

/-- Matching the fourth `V`-line pattern entails matching the first. -/
theorem match_v4_imp (line : List ℕ) (h : match_v4 line = true) :
    match_v1 line = true := by
  rw [match_v1]
  rw [match_v4, Bool.and_eq_true] at h
  exact h.1

/-- The first `V`-line pattern has no end anchor and is tried first, so
the first-match-wins dispatch always yields the 4-group match: the 5-,
8- and 9-group patterns are dead alternatives. -/
theorem v_line_match_eq (line : List ℕ) :
    v_line_match line
      = if match_v1 line then
          some (.groups4 (sliceL line 4 18) (sliceL line 18 32) (sliceL line 32 46))
        else none := by
  rw [v_line_match]
  by_cases h1 : match_v1 line = true
  · rw [if_pos h1, if_pos h1]
  · rw [if_neg h1, if_neg h1, if_neg (fun h => h1 (match_v2_imp line h)),
      if_neg (fun h => h1 (match_v3_imp line h)),
      if_neg (fun h => h1 (match_v4_imp line h))]

/-- Claim C1, counterexample: `vLineEx` is a well-formed `V` line whose
clock-rate field holds `5.000000`, yet the dispatch selects the
unanchored 4-group pattern, so the parsed record's `clock_rate` is
`None` — not the parsed value scaled by `10⁻⁴` as claimed. -/
theorem unit_normalisation_c1_counterexample :
    match_v2 vLineEx = true
    ∧ v_line_match vLineEx
        = some (.groups4 (sliceL vLineEx 4 18) (sliceL vLineEx 18 32)
            (sliceL vLineEx 32 46))
    ∧ ∃ r', parse_v_line_step (fun _ => 5) (fun _ => 0) sampleRecord vLineEx 2 2
          = some r'
        ∧ r'.clock_rate = none
        ∧ r'.clock_rate ≠ some ((5 : ℚ) * (1 / 10000)) := by
  refine ⟨by decide, by decide, ⟨_, rfl, rfl, ?_⟩⟩
  intro h
  rw [show (apply_v_groups (fun _ => 5) (fun _ => 0) sampleRecord
      (.groups4 (sliceL vLineEx 4 18) (sliceL vLineEx 18 32) (sliceL vLineEx 32 46))
      2 2).clock_rate = none from rfl] at h
  exact Option.noConfusion h

/-- Claim C1 (amended): every stored record is unit-normalised as claimed
for positions (km → m, ×10³), velocities (dm/s → m/s, ×10⁻¹), clocks
(μs → s, ×10⁻⁶), position standard deviations (`position_base^e` × 10⁻³,
omitted when an exponent field is blank) and clock standard deviations
(`clock_base^e` × 10⁻¹²); but `clock_rate`, `velocity_std` and
`clock_rate_std` are never populated: the first `V`-line pattern lacks an
end anchor and is tried first, so every `V` line is captured with 4
groups and the branches that would set those three fields are
unreachable — a `V` line leaves them unchanged (`None` on records built
from a `P` line). -/
theorem unit_normalisation_c1
    (epoch : ℤ) (x y z : ℚ) (clk : Option ℚ) (e1 e2 e3 ce : Option ℕ)
    (flagE flagP : Option Char) (pb cb : ℚ) :
    (record_from_position_line epoch x y z clk e1 e2 e3 ce flagE flagP pb cb).position
      = (x * 1000, y * 1000, z * 1000)
    ∧ (∀ v, clk = some v →
        (record_from_position_line epoch x y z clk e1 e2 e3 ce flagE flagP pb cb).clock
          = some (v * (1 / 1000000)))
    ∧ (clk = none →
        (record_from_position_line epoch x y z clk e1 e2 e3 ce flagE flagP pb cb).clock
          = none)
    ∧ (∀ a b c, e1 = some a → e2 = some b → e3 = some c →
        (record_from_position_line epoch x y z clk e1 e2 e3 ce flagE flagP pb cb).position_std
          = some (pb ^ a * (1 / 1000), pb ^ b * (1 / 1000), pb ^ c * (1 / 1000)))
    ∧ (e1 = none ∨ e2 = none ∨ e3 = none →
        (record_from_position_line epoch x y z clk e1 e2 e3 ce flagE flagP pb cb).position_std
          = none)
    ∧ (∀ e, ce = some e →
        (record_from_position_line epoch x y z clk e1 e2 e3 ce flagE flagP pb cb).clock_std
          = some (cb ^ e * (1 / 10 ^ 12)))
    ∧ (∀ line : List ℕ, v_line_match line
        = if match_v1 line then
            some (.groups4 (sliceL line 4 18) (sliceL line 18 32) (sliceL line 32 46))
          else none)
    ∧ (∀ (pyFloat : List ℕ → ℚ) (pyNat : List ℕ → ℕ) (r r' : Record)
        (line : List ℕ),
        parse_v_line_step pyFloat pyNat r line pb cb = some r' →
          r'.velocity = some (pyFloat (sliceL line 4 18) * (1 / 10),
              pyFloat (sliceL line 18 32) * (1 / 10),
              pyFloat (sliceL line 32 46) * (1 / 10))
            ∧ r'.clock_rate = r.clock_rate
            ∧ r'.velocity_std = r.velocity_std
            ∧ r'.clock_rate_std = r.clock_rate_std) := by
  refine ⟨rfl, ?_, ?_, ?_, ?_, ?_, v_line_match_eq, ?_⟩
  · rintro v rfl; rfl
  · rintro rfl; rfl
  · rintro a b c rfl rfl rfl; rfl
  · intro h
    rcases e1 with _ | a <;> rcases e2 with _ | b <;> rcases e3 with _ | c <;>
      simp_all [record_from_position_line]
  · rintro e rfl; rfl
  · intro pyFloat pyNat r r' line h
    rw [parse_v_line_step, v_line_match_eq] at h
    by_cases h1 : match_v1 line = true
    · rw [if_pos h1, Option.map_some'] at h
      rw [← Option.some.inj h]
      exact ⟨rfl, rfl, rfl, rfl⟩
    · rw [if_neg h1] at h
      exact absurd h (by simp)

/-- Claim C1, witness: concrete instantiation of the amended theorem at
the `V` line `vLineEx` — the velocity is set scaled by 10⁻¹ and the
clock-rate and standard-deviation fields are left untouched. -/
theorem unit_normalisation_c1_witness :
    ∃ r', parse_v_line_step (fun _ => 7) (fun _ => 0) recA vLineEx 2 2 = some r'
      ∧ r'.velocity = some ((7 : ℚ) * (1 / 10), (7 : ℚ) * (1 / 10),
          (7 : ℚ) * (1 / 10))
      ∧ r'.clock_rate = recA.clock_rate
      ∧ r'.velocity_std = recA.velocity_std
      ∧ r'.clock_rate_std = recA.clock_rate_std := by
  refine ⟨_, rfl, ?_⟩
  exact (unit_normalisation_c1 0 1 2 3 none none none none none none none 2
      2).2.2.2.2.2.2.2 (fun _ => 7) (fun _ => 0) recA _ vLineEx rfl

/-- Element access of `epoch_times`. -/
theorem epoch_times_getD (ts : TimeSystem) (taiToUtc : ℤ → ℤ) (start interval : ℤ)
    (n k : ℕ) (hk : k < n) :
    (epoch_times ts taiToUtc start interval n).getD k 0
      = time_to_utc taiToUtc ts (start + (k : ℤ) * interval) := by
  simp only [epoch_times]
  rw [List.getD_eq_getElem?_getD, List.getElem?_map, List.getElem?_range hk]
  rfl

/-- Interval shift applied through an interval-translation-preserving map. -/
theorem shift_preserving_diff (g : ℤ → ℤ) (interval s : ℤ)
    (hg : ∀ t, g (t + interval) = g t + interval) (k : ℕ) :
    g (s + ((k + 1 : ℕ) : ℤ) * interval) - g (s + (k : ℤ) * interval) = interval := by
  have h1 : s + ((k + 1 : ℕ) : ℤ) * interval = (s + (k : ℤ) * interval) + interval := by
    push_cast
    ring
  rw [h1, hg]
  ring

/-- Claim C6, counterexample: with a GPS-time product whose epoch grid
crosses a leap second, the stored UTC-normalised record times are not
uniformly spaced: the UTC conversion of epochs 0, 500000 μs and 1000000 μs
yields times whose second difference is −500000 μs, not the header
interval 500000 μs. -/
theorem uniform_grid_c6_counterexample :
    epoch_times .gps leapTaiToUtc 0 500000 3 = [19000000, 19500000, 19000000]
    ∧ ((19000000 : ℤ) - 19500000 ≠ 500000) := by
  constructor
  · rfl
  · decide

/-- Claim C6 (amended): the stored record times of every satellite are
`time_to_utc (start + k·interval)`; their consecutive differences all
equal the header `epoch_interval` whenever the TAI→UTC conversion
preserves translations by `interval` (no leap second inside the product's
span), and unconditionally for the GLONASS, BEIDOU and UTC time systems,
whose conversions are plain shifts. -/
theorem uniform_grid_c6 (taiToUtc : ℤ → ℤ) (start interval : ℤ) (n : ℕ) :
    (∀ ts : TimeSystem, (∀ t : ℤ, taiToUtc (t + interval) = taiToUtc t + interval) →
      ∀ k : ℕ, k + 1 < n →
        (epoch_times ts taiToUtc start interval n).getD (k + 1) 0
          - (epoch_times ts taiToUtc start interval n).getD k 0 = interval)
    ∧ (∀ ts : TimeSystem, (ts = .glonass ∨ ts = .beidou ∨ ts = .utc) →
      ∀ k : ℕ, k + 1 < n →
        (epoch_times ts taiToUtc start interval n).getD (k + 1) 0
          - (epoch_times ts taiToUtc start interval n).getD k 0 = interval) := by
  have hshiftgps : (∀ t : ℤ, taiToUtc (t + interval) = taiToUtc t + interval) →
      ∀ t : ℤ, taiToUtc (t + 19 * usPerSecond + interval)
        = taiToUtc (t + 19 * usPerSecond) + interval := by
    intro hshift t
    exact hshift (t + 19 * usPerSecond)
  constructor
  · intro ts hshift k hk
    have hk' : k < n := Nat.lt_of_succ_lt hk
    rw [epoch_times_getD ts taiToUtc start interval n (k + 1) hk,
      epoch_times_getD ts taiToUtc start interval n k hk']
    cases ts <;> simp only [time_to_utc]
    case gps =>
      exact shift_preserving_diff (fun t => taiToUtc (t + 19 * usPerSecond)) interval
        start (fun t => by
          simp only
          rw [show t + interval + 19 * usPerSecond = t + 19 * usPerSecond + interval by ring]
          exact hshiftgps hshift t) k
    case irnss =>
      exact shift_preserving_diff (fun t => taiToUtc (t + 19 * usPerSecond)) interval
        start (fun t => by
          simp only
          rw [show t + interval + 19 * usPerSecond = t + 19 * usPerSecond + interval by ring]
          exact hshiftgps hshift t) k
    case qzss =>
      exact shift_preserving_diff (fun t => taiToUtc (t + 19 * usPerSecond)) interval
        start (fun t => by
          simp only
          rw [show t + interval + 19 * usPerSecond = t + 19 * usPerSecond + interval by ring]
          exact hshiftgps hshift t) k
    case galileo => exact shift_preserving_diff taiToUtc interval start hshift k
    case tai => exact shift_preserving_diff taiToUtc interval start hshift k
    case glonass =>
      exact shift_preserving_diff (fun t => t - 3 * 3600 * usPerSecond) interval start
        (fun t => by ring) k
    case beidou => exact shift_preserving_diff (fun t => t) interval start (fun t => rfl) k
    case utc => exact shift_preserving_diff (fun t => t) interval start (fun t => rfl) k
  · intro ts hts k hk
    have hk' : k < n := Nat.lt_of_succ_lt hk
    rw [epoch_times_getD ts taiToUtc start interval n (k + 1) hk,
      epoch_times_getD ts taiToUtc start interval n k hk']
    rcases hts with rfl | rfl | rfl
    · exact shift_preserving_diff (fun t => t - 3 * 3600 * usPerSecond) interval start
        (fun t => by ring) k
    · exact shift_preserving_diff (fun t => t) interval start (fun t => rfl) k
    · exact shift_preserving_diff (fun t => t) interval start (fun t => rfl) k

/-- Claim C6, witness: concrete instantiation of the amended theorem. -/
theorem uniform_grid_c6_witness :
    (epoch_times .glonass (fun t => t) 0 900000000 3).getD 1 0
      - (epoch_times .glonass (fun t => t) 0 900000000 3).getD 0 0 = 900000000 :=
  (uniform_grid_c6 (fun t => t) 0 900000000 3).2 .glonass (Or.inl rfl) 0 (by omega)

/-- Leading bytes of a stripped byte string are not whitespace. -/
theorem stripBytes_head_not_space (l : List ℕ) (b : ℕ)
    (h : (stripBytes l).head? = some b) : isSpaceByte b = false := by
  have hpre : stripBytes l <+: l.dropWhile isSpaceByte := by
    have hsuf := List.dropWhile_suffix (l := (l.dropWhile isSpaceByte).reverse)
      isSpaceByte
    have := hsuf.reverse
    rwa [List.reverse_reverse] at this
  obtain ⟨t, ht⟩ := hpre
  have hhead : (l.dropWhile isSpaceByte).head? = some b := by
    rw [← ht, List.head?_append, h]
    rfl
  have := List.head?_dropWhile_not isSpaceByte l
  rw [hhead] at this
  exact this

/-- Trailing bytes of a stripped byte string are not whitespace. -/
theorem stripBytes_getLast_not_space (l : List ℕ) (b : ℕ)
    (h : (stripBytes l).getLast? = some b) : isSpaceByte b = false := by
  rw [stripBytes, List.getLast?_reverse] at h
  have := List.head?_dropWhile_not isSpaceByte (l.dropWhile isSpaceByte).reverse
  rw [h] at this
  exact this

/-- Accumulation invariant for `comments_of`. -/
theorem comments_of_invariant (lines : List (List ℕ)) (acc : List (List ℕ))
    (hacc : ∀ c ∈ acc, c ≠ [] ∧ (∀ b, c.head? = some b → isSpaceByte b = false)
      ∧ (∀ b, c.getLast? = some b → isSpaceByte b = false)) :
    ∀ c ∈ lines.foldl add_comment acc,
      c ≠ [] ∧ (∀ b, c.head? = some b → isSpaceByte b = false)
        ∧ (∀ b, c.getLast? = some b → isSpaceByte b = false) := by
  induction lines generalizing acc with
  | nil => exact hacc
  | cons line rest ih =>
    intro c hc
    refine ih (add_comment acc line) ?_ c hc
    intro c' hc'
    by_cases hlen : (stripBytes line).length > 0
    · rw [add_comment] at hc'
      simp only [hlen, if_pos] at hc'
      rcases List.mem_append.mp hc' with hmem | hmem
      · exact hacc c' hmem
      · have hceq : c' = stripBytes line := List.mem_singleton.mp hmem
        subst hceq
        refine ⟨?_, fun b hb => stripBytes_head_not_space line b hb,
          fun b hb => stripBytes_getLast_not_space line b hb⟩
        intro hnil
        rw [hnil] at hlen
        exact absurd hlen (by simp)
    · rw [add_comment] at hc'
      simp only [hlen, if_neg, if_false] at hc'
      exact hacc c' hc'

/-- Claim C10: every element of `Product.comments` is a non-empty byte
string whose first and last bytes are not whitespace: each `/*` line's
content is stripped before storage, and lines that are empty after
stripping contribute nothing. -/
theorem comments_c10 (lines : List (List ℕ)) (c : List ℕ)
    (hc : c ∈ comments_of lines) :
    c ≠ [] ∧ (∀ b, c.head? = some b → isSpaceByte b = false)
      ∧ (∀ b, c.getLast? = some b → isSpaceByte b = false) :=
  comments_of_invariant lines [] (by intro c' hc'; exact absurd hc' (List.not_mem_nil c'))
    c hc

/-- Claim C10, witness: the file with comment contents `" a "` and `" "`
stores the single comment `"a"`. -/
theorem comments_c10_witness :
    ([97] : List ℕ) ≠ [] ∧ (∀ b, ([97] : List ℕ).head? = some b → isSpaceByte b = false)
      ∧ (∀ b, ([97] : List ℕ).getLast? = some b → isSpaceByte b = false) :=
  comments_c10 [[32, 97, 32], [32]] [97] (by decide)

/-- Entries of a strictly ascending record list are at most the last one. -/
theorem time_le_getLast (acc : List Record) (hacc : strictlyAscending acc)
    (lst : Record) (hlst : acc.getLast? = some lst) :
    ∀ a ∈ acc, a.time ≤ lst.time := by
  induction acc with
  | nil => cases hlst
  | cons x xs ih =>
    cases xs with
    | nil =>
      intro a ha
      have hx : lst = x := by
        simp only [List.getLast?_singleton, Option.some.injEq] at hlst
        exact hlst.symm
      have ha' : a = x := by simpa using ha
      rw [hx, ha']
    | cons y ys =>
      have hlst' : (y :: ys).getLast? = some lst := by
        rwa [List.getLast?_cons_cons] at hlst
      rw [strictlyAscending, List.pairwise_cons] at hacc
      intro a ha
      rcases List.mem_cons.mp ha with rfl | ha'
      · exact le_of_lt (hacc.1 lst (List.mem_of_getLast?_eq_some hlst'))
      · exact ih hacc.2 hlst' a ha'

/-- Entries of a strictly ascending record list are at least the first one. -/
theorem head_time_le (acc : List Record) (hacc : strictlyAscending acc)
    (fst : Record) (hfst : acc.head? = some fst) :
    ∀ a ∈ acc, fst.time ≤ a.time := by
  cases acc with
  | nil => cases hfst
  | cons x xs =>
    have hx : fst = x := by
      simp only [List.head?_cons, Option.some.injEq] at hfst
      exact hfst.symm
    rw [strictlyAscending, List.pairwise_cons] at hacc
    intro a ha
    rcases List.mem_cons.mp ha with rfl | ha'
    · rw [hx]
    · rw [hx]
      exact le_of_lt (hacc.1 a ha')

/-- Appending through `append_step` preserves strict ascent. -/
theorem append_step_ascending (acc : List Record) (r : Record)
    (hacc : strictlyAscending acc) : strictlyAscending (append_step acc r) := by
  cases hl : acc.getLast? with
  | none =>
    have hnil : acc = [] := by
      cases acc with
      | nil => rfl
      | cons x xs => simp [List.getLast?_eq_getLast] at hl
    subst hnil
    simp [append_step, strictlyAscending]
  | some l =>
    simp only [append_step, hl]
    by_cases hlt : l.time < r.time
    · rw [if_pos hlt, strictlyAscending, List.pairwise_append]
      refine ⟨hacc, by simp, ?_⟩
      intro a ha b hb
      have hb' : b = r := by simpa using hb
      rw [hb']
      calc a.time ≤ l.time := time_le_getLast acc hacc l hl a ha
        _ < r.time := hlt
    · rw [if_neg hlt]
      exact hacc

/-- Prepending through `prepend_step` preserves strict ascent. -/
theorem prepend_step_ascending (acc : List Record) (r : Record)
    (hacc : strictlyAscending acc) : strictlyAscending (prepend_step acc r) := by
  cases hf : acc.head? with
  | none =>
    have hnil : acc = [] := by
      cases acc with
      | nil => rfl
      | cons x xs => simp at hf
    subst hnil
    simp [prepend_step, strictlyAscending]
  | some f =>
    simp only [prepend_step, hf]
    by_cases hlt : r.time < f.time
    · rw [if_pos hlt, strictlyAscending, List.pairwise_cons]
      refine ⟨?_, hacc⟩
      intro a ha
      calc r.time < f.time := hlt
        _ ≤ a.time := head_time_le acc hacc f hf a ha
    · rw [if_neg hlt]
      exact hacc

/-- Folding `append_step` preserves strict ascent. -/
theorem foldl_append_step_ascending (incoming : List Record) :
    ∀ acc : List Record, strictlyAscending acc →
      strictlyAscending (incoming.foldl append_step acc) := by
  induction incoming with
  | nil => intro acc hacc; exact hacc
  | cons r rest ih =>
    intro acc hacc
    exact ih (append_step acc r) (append_step_ascending acc r hacc)

/-- Folding `prepend_step` preserves strict ascent. -/
theorem foldl_prepend_step_ascending (incoming : List Record) :
    ∀ acc : List Record, strictlyAscending acc →
      strictlyAscending (incoming.foldl prepend_step acc) := by
  induction incoming with
  | nil => intro acc hacc; exact hacc
  | cons r rest ih =>
    intro acc hacc
    exact ih (prepend_step acc r) (prepend_step_ascending acc r hacc)

/-- Claim C8, counterexample: an incoming record with a time equal to the
last accumulated record's time is discarded, not substituted: merging
`[recB]` (time 0) into `[recA]` (time 0) keeps the old `recA`. -/
theorem merge_c8_counterexample :
    merge_forward [recA] [recB] = [recA]
    ∧ recA ≠ recB
    ∧ merge_forward [recA] [recB] ≠ [recB] := by
  have h1 : merge_forward [recA] [recB] = [recA] := by
    simp [merge_forward, append_step, recA, recB, mkRecord]
  have hne : recA ≠ recB := by
    intro h
    have hpos : recA.position = recB.position := by rw [h]
    rw [show recA.position = (1, 2, 3) from rfl,
      show recB.position = (4, 5, 6) from rfl] at hpos
    have : (1 : ℚ) = 4 := congrArg Prod.fst hpos
    norm_num at this
  refine ⟨h1, hne, ?_⟩
  rw [h1]
  intro h
  simp only [List.cons.injEq, and_true] at h
  exact hne h

/-- Claim C8 (amended): when newly fetched records are concatenated onto
the accumulated deque in `load`, a record whose time does not strictly
exceed the last accumulated time (forward branch) or is not strictly
below the first accumulated time (backward branch) is discarded — an
equal-time record never replaces the existing one — and otherwise it is
appended (resp. prepended), so the merged sequence stays strictly
ascending in time. -/
theorem merge_c8 (acc incoming : List Record) (r lst fst : Record)
    (hacc : strictlyAscending acc) :
    strictlyAscending (merge_forward acc incoming)
    ∧ strictlyAscending (merge_backward acc incoming)
    ∧ (acc.getLast? = some lst → r.time ≤ lst.time → append_step acc r = acc)
    ∧ (acc.getLast? = some lst → lst.time < r.time → append_step acc r = acc ++ [r])
    ∧ (acc.head? = some fst → fst.time ≤ r.time → prepend_step acc r = acc)
    ∧ (acc.head? = some fst → r.time < fst.time → prepend_step acc r = r :: acc) := by
  refine ⟨foldl_append_step_ascending incoming acc hacc,
    foldl_prepend_step_ascending incoming.reverse acc hacc, ?_, ?_, ?_, ?_⟩
  · intro hlst hle
    simp only [append_step, hlst]
    rw [if_neg (not_lt.mpr hle)]
  · intro hlst hlt
    simp only [append_step, hlst]
    rw [if_pos hlt]
  · intro hfst hle
    simp only [prepend_step, hfst]
    rw [if_neg (not_lt.mpr hle)]
  · intro hfst hlt
    simp only [prepend_step, hfst]
    rw [if_pos hlt]

/-- Claim C8, witness: concrete instantiation of the amended theorem. -/
theorem merge_c8_witness : strictlyAscending (merge_forward [recA] [recB]) :=
  (merge_c8 [recA] [recB] recB recA recA (by simp [strictlyAscending])).1

/-- Length is preserved by `set_accuracy`. -/
theorem set_accuracy_length (l : List Satellite) :
    ∀ (n : ℕ) (a : Option ℚ), (set_accuracy l n a).length = l.length := by
  induction l with
  | nil => intro n a; rfl
  | cons s rest ih =>
    intro n a
    cases n with
    | zero => rfl
    | succ n' => simp [set_accuracy, ih n' a]

/-- Positions other than the written one are unchanged by `set_accuracy`. -/
theorem set_accuracy_getElem?_ne (l : List Satellite) :
    ∀ (n k : ℕ) (a : Option ℚ), k ≠ n → (set_accuracy l n a)[k]? = l[k]? := by
  induction l with
  | nil => intro n k a _; rfl
  | cons s rest ih =>
    intro n k a hk
    cases n with
    | zero =>
      cases k with
      | zero => exact absurd rfl hk
      | succ k' => simp [set_accuracy]
    | succ n' =>
      cases k with
      | zero => simp [set_accuracy]
      | succ k' =>
        simp only [set_accuracy, List.getElem?_cons_succ]
        exact ih n' k' a (fun h => hk (by rw [h]))

/-- The written position of `set_accuracy` holds the updated satellite. -/
theorem set_accuracy_getElem?_eq (l : List Satellite) :
    ∀ (n : ℕ) (a : Option ℚ),
      (set_accuracy l n a)[n]? = (l[n]?).map fun s => { s with accuracy := a } := by
  induction l with
  | nil => intro n a; rfl
  | cons s rest ih =>
    intro n a
    cases n with
    | zero => simp [set_accuracy]
    | succ n' =>
      simp only [set_accuracy, List.getElem?_cons_succ]
      exact ih n' a

/-- Blank accuracy slices are skipped: processing the raw field list is
the same as processing only its non-blank entries. -/
theorem apply_accuracies_filterMap (fields : List (Option ℕ)) :
    ∀ (sats : List Satellite) (idx : ℕ),
      apply_accuracies sats idx fields
        = apply_accuracies sats idx ((fields.filterMap id).map some) := by
  induction fields with
  | nil => intro sats idx; rfl
  | cons f rest ih =>
    intro sats idx
    cases f with
    | none => simpa [apply_accuracies] using ih sats idx
    | some e =>
      simp only [List.filterMap_cons_some, List.map_cons, apply_accuracies]
      by_cases hidx : idx < sats.length
      · rw [if_pos hidx, if_pos hidx]
        exact ih (set_accuracy sats idx (accuracy_of_exponent e)) (idx + 1)
      · rw [if_neg hidx, if_neg hidx]
        by_cases he : 0 < e
        · rw [if_pos he, if_pos he]
        · rw [if_neg he, if_neg he]
          exact ih sats idx

/-- Full characterisation of `apply_accuracies` on non-blank exponent
lists, generalised over the running satellite index. -/
theorem apply_accuracies_spec (es : List ℕ) :
    ∀ (sats : List Satellite) (idx : ℕ),
      (((es.drop (sats.length - idx)).all fun e => e == 0) = true →
        ∃ sats', apply_accuracies sats idx (es.map some) = .ok sats'
          ∧ sats'.length = sats.length
          ∧ (∀ k, k < es.length → idx + k < sats.length →
              sats'[idx + k]? = (sats[idx + k]?).map fun s =>
                { s with accuracy := accuracy_of_exponent (es.getD k 0) })
          ∧ (∀ j, j < idx → sats'[j]? = sats[j]?)
          ∧ (∀ j, idx + es.length ≤ j → sats'[j]? = sats[j]?))
      ∧ (((es.drop (sats.length - idx)).all fun e => e == 0) = false →
        apply_accuracies sats idx (es.map some) = .error .tooManyAccuracyFields) := by
  induction es with
  | nil =>
    intro sats idx
    constructor
    · intro _
      exact ⟨sats, rfl, rfl, fun k hk => absurd hk (Nat.not_lt_zero k),
        fun j _ => rfl, fun j _ => rfl⟩
    · intro hall
      rw [List.drop_nil] at hall
      cases hall
  | cons e rest ih =>
    intro sats idx
    constructor
    · intro hall
      by_cases hidx : idx < sats.length
      · have hcap : sats.length - idx = (sats.length - (idx + 1)) + 1 := by omega
        rw [hcap, List.drop_succ_cons] at hall
        have hall' : ((rest.drop
            ((set_accuracy sats idx (accuracy_of_exponent e)).length - (idx + 1))).all
              fun x => x == 0) = true := by
          rwa [set_accuracy_length]
        obtain ⟨sats', h1, h2, h3, h4, h5⟩ :=
          (ih (set_accuracy sats idx (accuracy_of_exponent e)) (idx + 1)).1 hall'
        refine ⟨sats', ?_, ?_, ?_, ?_, ?_⟩
        · rw [List.map_cons]
          simp only [apply_accuracies, if_pos hidx]
          exact h1
        · rw [h2, set_accuracy_length]
        · intro k hk hik
          cases k with
          | zero =>
            have hj : sats'[idx]? = (set_accuracy sats idx (accuracy_of_exponent e))[idx]? :=
              h4 idx (by omega)
            rw [Nat.add_zero] at hik ⊢
            rw [hj, set_accuracy_getElem?_eq]
            rfl
          | succ k' =>
            have hik' : idx + 1 + k' < sats.length := by omega
            have hk' : k' < rest.length := by simpa using Nat.lt_of_succ_lt_succ hk
            have h3' := h3 k' hk' (by rwa [set_accuracy_length])
            rw [set_accuracy_getElem?_ne sats idx (idx + 1 + k')
              (accuracy_of_exponent e) (by omega)] at h3'
            rw [show idx + (k' + 1) = idx + 1 + k' from by omega]
            rw [h3']
            rfl
        · intro j hj
          rw [h4 j (by omega),
            set_accuracy_getElem?_ne sats idx j (accuracy_of_exponent e) (by omega)]
        · intro j hj
          rw [h5 j (by simp only [List.length_cons] at hj; omega),
            set_accuracy_getElem?_ne sats idx j (accuracy_of_exponent e) (by
              simp only [List.length_cons] at hj
              omega)]
      · have hm : sats.length - idx = 0 := by omega
        rw [hm, List.drop_zero, List.all_cons, Bool.and_eq_true, beq_iff_eq] at hall
        obtain ⟨he, hrest⟩ := hall
        have hrest' : ((rest.drop (sats.length - idx)).all fun x => x == 0) = true := by
          rw [hm, List.drop_zero]
          exact hrest
        obtain ⟨sats', h1, h2, h3, h4, h5⟩ := (ih sats idx).1 hrest'
        refine ⟨sats', ?_, h2, ?_, h4, ?_⟩
        · rw [List.map_cons]
          simp only [apply_accuracies, if_neg hidx]
          rw [if_neg (by omega : ¬ 0 < e)]
          exact h1
        · intro k hk hik
          exact absurd hik (by omega)
        · intro j hj
          exact h5 j (by simp only [List.length_cons] at hj; omega)
    · intro hall
      by_cases hidx : idx < sats.length
      · have hcap : sats.length - idx = (sats.length - (idx + 1)) + 1 := by omega
        rw [hcap, List.drop_succ_cons] at hall
        have hall' : ((rest.drop
            ((set_accuracy sats idx (accuracy_of_exponent e)).length - (idx + 1))).all
              fun x => x == 0) = false := by
          rwa [set_accuracy_length]
        have := (ih (set_accuracy sats idx (accuracy_of_exponent e)) (idx + 1)).2 hall'
        rw [List.map_cons]
        simp only [apply_accuracies, if_pos hidx]
        exact this
      · have hm : sats.length - idx = 0 := by omega
        rw [hm, List.drop_zero, List.all_cons] at hall
        rw [List.map_cons]
        simp only [apply_accuracies, if_neg hidx]
        by_cases he : e = 0
        · rw [if_neg (by omega : ¬ 0 < e)]
          have hrest : (rest.all fun x => x == 0) = false := by
            subst he
            simpa using hall
          have hrest' : ((rest.drop (sats.length - idx)).all fun x => x == 0) = false := by
            rw [hm, List.drop_zero]
            exact hrest
          exact (ih sats idx).2 hrest'
        · rw [if_pos (by omega : 0 < e)]

/-- Claim C9: the k-th non-blank accuracy exponent is applied to the k-th
satellite in header order (`none` for exponent 0, `2^e/1000` metres
otherwise); satellites beyond the non-blank exponents keep their previous
accuracy; parsing fails exactly when a positive exponent occurs after all
declared satellites were assigned, extra zero exponents being
tolerated. -/
theorem accuracy_c9 (sats : List Satellite) (fields : List (Option ℕ)) :
    ((((fields.filterMap id).drop sats.length).all fun e => e == 0) = true →
      ∃ sats', apply_accuracies sats 0 fields = .ok sats'
        ∧ sats'.length = sats.length
        ∧ (∀ k, k < (fields.filterMap id).length → k < sats.length →
            sats'[k]? = (sats[k]?).map fun s =>
              { s with accuracy := accuracy_of_exponent ((fields.filterMap id).getD k 0) })
        ∧ (∀ k, (fields.filterMap id).length ≤ k → sats'[k]? = sats[k]?))
    ∧ ((((fields.filterMap id).drop sats.length).all fun e => e == 0) = false →
      apply_accuracies sats 0 fields = .error .tooManyAccuracyFields) := by
  have hfm := apply_accuracies_filterMap fields sats 0
  have hspec := apply_accuracies_spec (fields.filterMap id) sats 0
  rw [Nat.sub_zero] at hspec
  constructor
  · intro hall
    obtain ⟨sats', h1, h2, h3, h4, h5⟩ := hspec.1 hall
    refine ⟨sats', by rw [hfm]; exact h1, h2, ?_, ?_⟩
    · intro k hk1 hk2
      have := h3 k hk1 (by omega)
      rwa [Nat.zero_add] at this
    · intro k hk
      exact h5 k (by omega)
  · intro hall
    rw [hfm]
    exact hspec.2 hall

/-- Claim C9, witness: two satellites, accuracy fields
`[0, blank, 7, 0]`; the trailing zero exponent beyond the two satellites
is tolerated, `G01` gets accuracy `none` and `G02` gets `2^7/1000`. -/
theorem accuracy_c9_witness :
    ∃ sats', apply_accuracies [satG01, satG02] 0 [some 0, none, some 7, some 0] = .ok sats'
      ∧ sats'.length = ([satG01, satG02] : List Satellite).length
      ∧ (∀ k, k < (([some 0, none, some 7, some 0] : List (Option ℕ)).filterMap id).length →
          k < ([satG01, satG02] : List Satellite).length →
          sats'[k]? = (([satG01, satG02] : List Satellite)[k]?).map fun s =>
            { s with
              accuracy := accuracy_of_exponent ((([some 0, none, some 7,
                some 0] : List (Option ℕ)).filterMap id).getD k 0) })
      ∧ (∀ k, (([some 0, none, some 7, some 0] : List (Option ℕ)).filterMap id).length ≤ k →
          sats'[k]? = ([satG01, satG02] : List Satellite)[k]?) :=
  (accuracy_c9 [satG01, satG02] [some 0, none, some 7, some 0]).1 (by decide)

/-- The builder succeeds exactly when the checks pass, and then returns
the unchecked body. -/
theorem narrowed_ok_iff (polyfit : ℕ → List ℚ → List Vec3 → List Vec3)
    (std : List Vec3 → Vec3) (records : List Record) (w d : ℕ)
    (pp : PiecewisePolynomial) :
    narrowed_records_to_piecewise_polynomial polyfit std records w d = .ok pp
      ↔ d < w * 2 + 1 ∧ w * 2 + 1 ≤ records.length
        ∧ pp = build_unchecked polyfit std records w d := by
  rw [narrowed_records_to_piecewise_polynomial]
  split_ifs with h1 h2
  · constructor
    · intro h
      exact absurd h (by simp)
    · intro hp
      exact absurd hp.2.1 (by omega)
  · constructor
    · intro h
      exact ⟨by omega, by omega, (Except.ok.inj h).symm⟩
    · rintro ⟨-, -, rfl⟩
      rfl
  · constructor
    · intro h
      exact absurd h (by simp)
    · intro hp
      exact absurd hp.1 (by omega)

/-- Offset of the built polynomial. -/
theorem build_offset_def (polyfit : ℕ → List ℚ → List Vec3 → List Vec3)
    (std : List Vec3 → Vec3) (records : List Record) (w d : ℕ) :
    (build_unchecked polyfit std records w d).offset
      = sliceL (relative_record_time records) w (records.length - w) := rfl

/-- Interval boundaries of the built polynomial. -/
theorem build_begin_def (polyfit : ℕ → List ℚ → List Vec3 → List Vec3)
    (std : List Vec3 → Vec3) (records : List Record) (w d : ℕ) :
    (build_unchecked polyfit std records w d).begin
      = List.zipWith (fun t dd => t - dd / 2)
          (sliceL (relative_record_time records) w (records.length - w))
          (sliceL (diffL (relative_record_time records)) (w - 1)
            (records.length - w - 1)) := rfl

/-- Position coefficients of the built polynomial. -/
theorem build_coefficients_def (polyfit : ℕ → List ℚ → List Vec3 → List Vec3)
    (std : List Vec3 → Vec3) (records : List Record) (w d : ℕ) :
    (build_unchecked polyfit std records w d).coefficients
      = fit_coefficients polyfit std (relative_record_time records)
          (records.map fun r => r.position)
          (sliceL (relative_record_time records) w (records.length - w)) w d
          (records.length - 2 * w) := rfl

/-- Velocity coefficients of the built polynomial. -/
theorem build_velocity_coefficients_def
    (polyfit : ℕ → List ℚ → List Vec3 → List Vec3)
    (std : List Vec3 → Vec3) (records : List Record) (w d : ℕ) :
    (build_unchecked polyfit std records w d).velocity_coefficients
      = if records.all fun r => r.velocity.isSome then
          velocity_fit_coefficients polyfit std (relative_record_time records)
            (records.map fun r => (r.velocity).getD vzero)
            (sliceL (relative_record_time records) w (records.length - w)) w d
            (records.length - 2 * w)
        else polyder (build_unchecked polyfit std records w d).coefficients := rfl

/-- Nested-conditional normal form of `builder_checks`. -/
theorem builder_checks_char (window degree : ℤ) (n : ℕ) :
    builder_checks window degree n
      = if degree < 0 then some .invalidParameters
        else if window * 2 + 1 ≤ degree then some .invalidParameters
        else if (n : ℤ) < window * 2 + 1 then some .insufficientRecords
        else none := by
  simp only [builder_checks, gt_iff_lt, not_lt]

/-- Claim C5, counterexample: with `w = 0`, `d = 0` and one record, the
builder raises nothing at all — there is no `w < 1` validation, so the
claimed `InvalidParameters` failure does not occur. -/
theorem parameters_c5_counterexample :
    builder_checks 0 0 1 = none
    ∧ (0 : ℤ) < 1
    ∧ builder_checks 0 0 1 ≠ some BuildError.invalidParameters := by
  refine ⟨rfl, by decide, by decide⟩

/-- Claim C5 (amended): the builder validates only `d < 0` and
`2w + 1 ≤ d` (each raising `InvalidParameters`); it never checks
`w < 1`.  When those pass, it raises `InsufficientRecords` exactly when
`N < 2w + 1`, and otherwise builds; the ℕ-indexed builder agrees with
these signed checks. -/
theorem parameters_c5 (window degree : ℤ) (n : ℕ) :
    (builder_checks window degree n = some .invalidParameters ↔
      degree < 0 ∨ window * 2 + 1 ≤ degree)
    ∧ (builder_checks window degree n = some .insufficientRecords ↔
      0 ≤ degree ∧ degree < window * 2 + 1 ∧ (n : ℤ) < window * 2 + 1)
    ∧ (builder_checks window degree n = none ↔
      0 ≤ degree ∧ degree < window * 2 + 1 ∧ window * 2 + 1 ≤ (n : ℤ))
    ∧ ∀ (polyfit : ℕ → List ℚ → List Vec3 → List Vec3) (std : List Vec3 → Vec3)
        (records : List Record) (w d : ℕ),
        narrowed_records_to_piecewise_polynomial polyfit std records w d
          = match builder_checks (w : ℤ) (d : ℤ) records.length with
            | some e => .error e
            | none => .ok (build_unchecked polyfit std records w d) := by
  refine ⟨?_, ?_, ?_, ?_⟩
  · rw [builder_checks_char]
    split_ifs with h1 h2 h3
    · exact iff_of_true rfl (Or.inl h1)
    · exact iff_of_true rfl (Or.inr h2)
    · exact iff_of_false (by simp) (by omega)
    · exact iff_of_false (by simp) (by omega)
  · rw [builder_checks_char]
    split_ifs with h1 h2 h3
    · exact iff_of_false (by simp) (by omega)
    · exact iff_of_false (by simp) (by omega)
    · exact iff_of_true rfl ⟨by omega, by omega, h3⟩
    · exact iff_of_false (by simp) (by omega)
  · rw [builder_checks_char]
    split_ifs with h1 h2 h3
    · exact iff_of_false (by simp) (by omega)
    · exact iff_of_false (by simp) (by omega)
    · exact iff_of_false (by simp) (by omega)
    · exact iff_of_true rfl ⟨by omega, by omega, by omega⟩
  · intro polyfit std records w d
    rw [narrowed_records_to_piecewise_polynomial, builder_checks_char]
    split_ifs with h1 h2 h3 h4 h5 <;> first | rfl | omega

/-- Claim C5, witness: concrete instantiation of the amended theorem
(projecting the success characterisation). -/
theorem parameters_c5_witness :
    builder_checks 2 3 10 = none ↔
      0 ≤ (3 : ℤ) ∧ (3 : ℤ) < 2 * 2 + 1 ∧ 2 * 2 + 1 ≤ ((10 : ℕ) : ℤ) :=
  (parameters_c5 2 3 10).2.2.1

/-- Claim C4, counterexample: with degree 1 and velocity-free records,
the coefficient array has 2 rows but its analytic derivative has 1 — the
shapes are not aligned and no zero-padding occurs. -/
theorem velocity_c4_counterexample :
    ∃ pp, narrowed_records_to_piecewise_polynomial stubPolyfit stubStd recsNoVel 1 1
        = .ok pp
      ∧ pp.coefficients.length = 2
      ∧ pp.velocity_coefficients.length = 1
      ∧ pp.velocity_coefficients.length ≠ pp.coefficients.length := by
  have h2 : (build_unchecked stubPolyfit stubStd recsNoVel 1 1).coefficients.length
      = 2 := rfl
  have h3 :
      (build_unchecked stubPolyfit stubStd recsNoVel 1 1).velocity_coefficients.length
      = 1 := rfl
  exact ⟨build_unchecked stubPolyfit stubStd recsNoVel 1 1, rfl, h2, h3, by
    rw [h2, h3]
    decide⟩

/-- Claim C4 (amended): when every input record carries a velocity,
`velocity_coefficients` is the same per-interval recentred,
mean/std-normalised least-squares pipeline applied to the velocity
samples; otherwise it is the analytic derivative of the position
coefficients, which has one row fewer when `d ≥ 1` (the code performs no
zero-padding, so the array shapes differ). -/
theorem velocity_c4 (polyfit : ℕ → List ℚ → List Vec3 → List Vec3)
    (std : List Vec3 → Vec3) (records : List Record) (window degree : ℕ)
    (pp : PiecewisePolynomial) (_hw : 1 ≤ window)
    (hpp : narrowed_records_to_piecewise_polynomial polyfit std records window degree
      = .ok pp) :
    ((records.all fun r => r.velocity.isSome) = true →
      pp.velocity_coefficients
        = fit_coefficients polyfit std (relative_record_time records)
            (records.map fun r => (r.velocity).getD vzero) pp.offset window degree
            (records.length - 2 * window))
    ∧ ((records.all fun r => r.velocity.isSome) = false →
      pp.velocity_coefficients = polyder pp.coefficients
      ∧ pp.coefficients.length = degree + 1
      ∧ (1 ≤ degree → pp.velocity_coefficients.length = degree)) := by
  obtain ⟨hd, hn, hppe⟩ := (narrowed_ok_iff polyfit std records window degree pp).mp hpp
  subst hppe
  constructor
  · intro hall
    rw [build_velocity_coefficients_def, if_pos (by rw [hall]), build_offset_def]
    rfl
  · intro hall
    have hvel : (build_unchecked polyfit std records window degree).velocity_coefficients
        = polyder (build_unchecked polyfit std records window degree).coefficients := by
      rw [build_velocity_coefficients_def, if_neg (by rw [hall]; exact Bool.false_ne_true)]
    have hclen : (build_unchecked polyfit std records window degree).coefficients.length
        = degree + 1 := by
      rw [build_coefficients_def, fit_coefficients, List.length_map, List.length_range]
    refine ⟨hvel, hclen, ?_⟩
    intro hdeg
    rw [hvel]
    simp only [polyder]
    rw [if_neg (by omega), List.length_zipWith, List.length_range',
      List.length_drop, hclen]
    omega

/-- Claim C4, witness: concrete instantiation of the amended theorem's
velocity branch. -/
theorem velocity_c4_witness :
    (build_unchecked stubPolyfit stubStd recsVel 1 1).velocity_coefficients
      = fit_coefficients stubPolyfit stubStd (relative_record_time recsVel)
          (recsVel.map fun r => (r.velocity).getD vzero)
          (build_unchecked stubPolyfit stubStd recsVel 1 1).offset 1 1
          (recsVel.length - 2 * 1) :=
  (velocity_c4 stubPolyfit stubStd recsVel 1 1
      (build_unchecked stubPolyfit stubStd recsVel 1 1) (by omega) rfl).1 rfl

/-- Folded minimum is at most the seed. -/
theorem foldl_min_le_init (xs : List ℤ) : ∀ x : ℤ, xs.foldl min x ≤ x := by
  induction xs with
  | nil => intro x; exact le_refl x
  | cons y ys ih =>
    intro x
    exact le_trans (ih (min x y)) (min_le_left x y)

/-- Folded minimum is at most every member. -/
theorem foldl_min_le_mem (xs : List ℤ) :
    ∀ (x q : ℤ), q ∈ xs → xs.foldl min x ≤ q := by
  induction xs with
  | nil => intro x q hq; exact absurd hq (List.not_mem_nil q)
  | cons y ys ih =>
    intro x q hq
    rcases List.mem_cons.mp hq with rfl | hq'
    · exact le_trans (foldl_min_le_init ys (min x q)) (min_le_right x q)
    · exact ih (min x y) q hq'

/-- Folded minimum is the seed or a member. -/
theorem foldl_min_mem (xs : List ℤ) :
    ∀ x : ℤ, xs.foldl min x = x ∨ xs.foldl min x ∈ xs := by
  induction xs with
  | nil => intro x; exact Or.inl rfl
  | cons y ys ih =>
    intro x
    rcases ih (min x y) with h | h
    · rcases min_choice x y with hm | hm
      · exact Or.inl (by rw [List.foldl_cons, h, hm])
      · exact Or.inr (by rw [List.foldl_cons, h, hm]; exact List.mem_cons_self y ys)
    · exact Or.inr (List.mem_cons_of_mem y h)

/-- Folded maximum is at least the seed. -/
theorem foldl_max_ge_init (xs : List ℤ) : ∀ x : ℤ, x ≤ xs.foldl max x := by
  induction xs with
  | nil => intro x; exact le_refl x
  | cons y ys ih =>
    intro x
    exact le_trans (le_max_left x y) (ih (max x y))

/-- Folded maximum is at least every member. -/
theorem foldl_max_ge_mem (xs : List ℤ) :
    ∀ (x q : ℤ), q ∈ xs → q ≤ xs.foldl max x := by
  induction xs with
  | nil => intro x q hq; exact absurd hq (List.not_mem_nil q)
  | cons y ys ih =>
    intro x q hq
    rcases List.mem_cons.mp hq with rfl | hq'
    · exact le_trans (le_max_right x q) (foldl_max_ge_init ys (max x q))
    · exact ih (max x y) q hq'

/-- Folded maximum is the seed or a member. -/
theorem foldl_max_mem (xs : List ℤ) :
    ∀ x : ℤ, xs.foldl max x = x ∨ xs.foldl max x ∈ xs := by
  induction xs with
  | nil => intro x; exact Or.inl rfl
  | cons y ys ih =>
    intro x
    rcases ih (max x y) with h | h
    · rcases max_choice x y with hm | hm
      · exact Or.inl (by rw [List.foldl_cons, h, hm])
      · exact Or.inr (by rw [List.foldl_cons, h, hm]; exact List.mem_cons_self y ys)
    · exact Or.inr (List.mem_cons_of_mem y h)

/-- The batch minimum bounds every member from below. -/
theorem listMin_le (l : List ℤ) (q : ℤ) (hq : q ∈ l) : listMin l ≤ q := by
  cases l with
  | nil => exact absurd hq (List.not_mem_nil q)
  | cons x xs =>
    rcases List.mem_cons.mp hq with rfl | hq'
    · exact foldl_min_le_init xs q
    · exact foldl_min_le_mem xs x q hq'

/-- The batch minimum of a non-empty batch is a member. -/
theorem listMin_mem (l : List ℤ) (h : l ≠ []) : listMin l ∈ l := by
  cases l with
  | nil => exact absurd rfl h
  | cons x xs =>
    rcases foldl_min_mem xs x with hm | hm
    · rw [listMin, hm]; exact List.mem_cons_self x xs
    · exact List.mem_cons_of_mem x hm

/-- The batch maximum bounds every member from above. -/
theorem listMax_ge (l : List ℤ) (q : ℤ) (hq : q ∈ l) : q ≤ listMax l := by
  cases l with
  | nil => exact absurd hq (List.not_mem_nil q)
  | cons x xs =>
    rcases List.mem_cons.mp hq with rfl | hq'
    · exact foldl_max_ge_init xs q
    · exact foldl_max_ge_mem xs x q hq'

/-- The batch maximum of a non-empty batch is a member. -/
theorem listMax_mem (l : List ℤ) (h : l ≠ []) : listMax l ∈ l := by
  cases l with
  | nil => exact absurd rfl h
  | cons x xs =>
    rcases foldl_max_mem xs x with hm | hm
    · rw [listMax, hm]; exact List.mem_cons_self x xs
    · exact List.mem_cons_of_mem x hm

/-- Claim C2: the built polynomial has `minimum_time = records[w].time`
and `maximum_time = records[N-w].time`, and a non-empty batch of query
instants fails with `OutOfRange` exactly when some instant is strictly
before `minimum_time` or at/after `maximum_time`; a batch entirely inside
`[minimum_time, maximum_time)` is evaluated without error. -/
theorem bounds_c2 (polyfit : ℕ → List ℚ → List Vec3 → List Vec3)
    (std : List Vec3 → Vec3) (records : List Record) (window degree : ℕ)
    (pp : PiecewisePolynomial) (_hw : 1 ≤ window)
    (_hasc : strictlyAscending records)
    (hpp : narrowed_records_to_piecewise_polynomial polyfit std records window degree
      = .ok pp)
    (obstime : List ℤ) (hne : obstime ≠ []) :
    pp.minimum_time = (records.getD window (mkRecord 0 vzero)).time
    ∧ pp.maximum_time
        = (records.getD (records.length - window) (mkRecord 0 vzero)).time
    ∧ ((∃ e, pp.call obstime = .error e) ↔
        ∃ q ∈ obstime, q < pp.minimum_time ∨ pp.maximum_time ≤ q)
    ∧ ((∀ q ∈ obstime, pp.minimum_time ≤ q ∧ q < pp.maximum_time) →
        pp.call obstime = .ok (obstime.map (eval_at pp))) := by
  obtain ⟨hd, hn, hppe⟩ :=
    (narrowed_ok_iff polyfit std records window degree pp).mp hpp
  subst hppe
  refine ⟨rfl, rfl, ?_, ?_⟩
  · rw [PiecewisePolynomial.call]
    constructor
    · rintro ⟨e, he⟩
      by_cases h1 : listMin obstime
          < (build_unchecked polyfit std records window degree).minimum_time
      · exact ⟨listMin obstime, listMin_mem obstime hne, Or.inl h1⟩
      · rw [if_neg h1] at he
        by_cases h2 : (build_unchecked polyfit std records window degree).maximum_time
            ≤ listMax obstime
        · exact ⟨listMax obstime, listMax_mem obstime hne, Or.inr h2⟩
        · rw [if_neg h2] at he
          exact absurd he (by simp)
    · rintro ⟨q, hq, hlt | hge⟩
      · rw [if_pos (lt_of_le_of_lt (listMin_le obstime q hq) hlt)]
        exact ⟨.outOfRangeBefore, rfl⟩
      · by_cases h1 : listMin obstime
            < (build_unchecked polyfit std records window degree).minimum_time
        · rw [if_pos h1]
          exact ⟨.outOfRangeBefore, rfl⟩
        · rw [if_neg h1, if_pos (le_trans hge (listMax_ge obstime q hq))]
          exact ⟨.outOfRangeAfter, rfl⟩
  · intro hall
    rw [PiecewisePolynomial.call,
      if_neg (not_lt.mpr (hall (listMin obstime) (listMin_mem obstime hne)).1),
      if_neg (not_le.mpr (hall (listMax obstime) (listMax_mem obstime hne)).2)]

/-- Claim C2, witness: concrete instantiation of the theorem (projecting
the `minimum_time` conjunct). -/
theorem bounds_c2_witness :
    (build_unchecked stubPolyfit stubStd recsNoVel 1 1).minimum_time
      = (recsNoVel.getD 1 (mkRecord 0 vzero)).time :=
  (bounds_c2 stubPolyfit stubStd recsNoVel 1 1
      (build_unchecked stubPolyfit stubStd recsNoVel 1 1) (by omega)
      (by norm_num [strictlyAscending, recsNoVel, List.pairwise_cons, mkRecord]) rfl
      [1000000] (by simp)).1

/-- Length of a slice with in-range upper bound. -/
theorem sliceL_length (l : List α) (a b : ℕ) (h : b ≤ l.length) :
    (sliceL l a b).length = b - a := by
  rw [sliceL, List.length_drop, List.length_take]
  omega

/-- Element of a slice with in-range bounds. -/
theorem sliceL_getD (l : List ℚ) (a b i : ℕ) (h1 : a + i < b) (_h2 : b ≤ l.length) :
    (sliceL l a b).getD i 0 = l.getD (a + i) 0 := by
  rw [List.getD_eq_getElem?_getD, List.getD_eq_getElem?_getD, sliceL,
    List.getElem?_drop, List.getElem?_take_of_lt (by omega : a + i < b)]

/-- Length of the relative-time array. -/
theorem relative_record_time_length (records : List Record) :
    (relative_record_time records).length = records.length := by
  rw [relative_record_time, List.length_map]

/-- Element of the relative-time array. -/
theorem relative_record_time_getD (records : List Record) (k : ℕ)
    (hk : k < records.length) :
    (relative_record_time records).getD k 0 = t_rel records k := by
  rw [relative_record_time, List.getD_eq_getElem?_getD, List.getElem?_map,
    List.getElem?_eq_getElem hk, t_rel,
    List.getD_eq_getElem records (mkRecord 0 vzero) hk]
  rfl

/-- Length of the consecutive-difference array. -/
theorem diffL_length (l : List ℚ) : (diffL l).length = l.length - 1 := by
  rw [diffL, List.length_zipWith, List.length_tail]
  omega

/-- Element of a zip of two lists at an in-range index. -/
theorem zipWith_getD (f : ℚ → ℚ → ℚ) (l1 l2 : List ℚ) (j : ℕ)
    (h1 : j < l1.length) (h2 : j < l2.length) :
    (List.zipWith f l1 l2).getD j 0 = f (l1.getD j 0) (l2.getD j 0) := by
  rw [List.getD_eq_getElem?_getD, List.getElem?_zipWith,
    List.getElem?_eq_getElem h1, List.getElem?_eq_getElem h2,
    List.getD_eq_getElem l1 0 h1, List.getD_eq_getElem l2 0 h2]
  rfl

/-- Element of the consecutive-difference array. -/
theorem diffL_getD (l : List ℚ) (k : ℕ) (hk : k + 1 < l.length) :
    (diffL l).getD k 0 = l.getD (k + 1) 0 - l.getD k 0 := by
  rw [diffL,
    zipWith_getD (fun a b => b - a) l l.tail k (by omega)
      (by rw [List.length_tail]; omega)]
  have ht : l.tail.getD k 0 = l.getD (k + 1) 0 := by
    rw [List.getD_eq_getElem?_getD, List.getElem?_tail, ← List.getD_eq_getElem?_getD]
  rw [ht]

/-- Relative record times are strictly increasing for strictly
time-ascending records. -/
theorem t_rel_lt (records : List Record) (hasc : strictlyAscending records)
    (i j : ℕ) (hij : i < j) (hj : j < records.length) :
    t_rel records i < t_rel records j := by
  have hi : i < records.length := by omega
  have htime : (records.getD i (mkRecord 0 vzero)).time
      < (records.getD j (mkRecord 0 vzero)).time := by
    rw [List.getD_eq_getElem records (mkRecord 0 vzero) hi,
      List.getD_eq_getElem records (mkRecord 0 vzero) hj]
    exact List.pairwise_iff_getElem.mp hasc i j hi hj hij
  simp only [t_rel, total_seconds]
  rw [div_lt_div_iff_of_pos_right (by norm_num : (0 : ℚ) < 1000000)]
  exact_mod_cast sub_lt_sub_right htime (first_time records)

/-- Conversion to relative seconds is monotone. -/
theorem total_seconds_mono (a b r : ℤ) (h : a ≤ b) :
    total_seconds a r ≤ total_seconds b r := by
  simp only [total_seconds]
  rw [div_le_div_iff_of_pos_right (by norm_num : (0 : ℚ) < 1000000)]
  exact_mod_cast sub_le_sub_right h r

/-- Offsets of the built polynomial are the central record times. -/
theorem build_offset_getD (polyfit : ℕ → List ℚ → List Vec3 → List Vec3)
    (std : List Vec3 → Vec3) (records : List Record) (w d : ℕ)
    (hn : w * 2 + 1 ≤ records.length) (j : ℕ)
    (hj : j < records.length - 2 * w) :
    (build_unchecked polyfit std records w d).offset.getD j 0
      = t_rel records (w + j) := by
  rw [build_offset_def,
    sliceL_getD _ w (records.length - w) j (by omega)
      (by rw [relative_record_time_length]; omega),
    relative_record_time_getD records (w + j) (by omega)]

/-- Interval boundaries of the built polynomial are the midpoints between
the centre and its predecessor. -/
theorem build_begin_getD (polyfit : ℕ → List ℚ → List Vec3 → List Vec3)
    (std : List Vec3 → Vec3) (records : List Record) (w d : ℕ) (hw : 1 ≤ w)
    (hn : w * 2 + 1 ≤ records.length) (j : ℕ)
    (hj : j < records.length - 2 * w) :
    (build_unchecked polyfit std records w d).begin.getD j 0
      = t_rel records (w + j)
        - (t_rel records (w + j) - t_rel records (w + j - 1)) / 2 := by
  rw [build_begin_def,
    zipWith_getD _ _ _ j
      (by rw [sliceL_length _ _ _ (by rw [relative_record_time_length]; omega)]; omega)
      (by
        rw [sliceL_length _ _ _ (by rw [diffL_length, relative_record_time_length]; omega)]
        omega),
    sliceL_getD _ w (records.length - w) j (by omega)
      (by rw [relative_record_time_length]; omega),
    sliceL_getD _ (w - 1) (records.length - w - 1) j (by omega)
      (by rw [diffL_length, relative_record_time_length]; omega),
    relative_record_time_getD records (w + j) (by omega),
    diffL_getD _ (w - 1 + j) (by rw [relative_record_time_length]; omega),
    show w - 1 + j + 1 = w + j from by omega,
    relative_record_time_getD records (w + j) (by omega),
    relative_record_time_getD records (w - 1 + j) (by omega),
    show w - 1 + j = w + j - 1 from by omega]

/-- A locally strictly increasing list is pairwise strictly increasing. -/
theorem pairwise_lt_of_local (l : List ℚ)
    (h : ∀ j, j + 1 < l.length → l.getD j 0 < l.getD (j + 1) 0) :
    l.Pairwise (· < ·) := by
  rw [← List.chain'_iff_pairwise, List.chain'_iff_get]
  intro i hi
  have hloc := h i (by omega)
  rw [List.getD_eq_getElem l 0 (by omega : i < l.length),
    List.getD_eq_getElem l 0 (by omega : i + 1 < l.length)] at hloc
  simpa [List.get_eq_getElem] using hloc

/-- Position in a strictly sorted list versus the right-insertion count:
the `j`-th element is `≤ v` exactly when `j` is below the number of
elements `≤ v`. -/
theorem sorted_getD_le_iff (l : List ℚ) (hl : l.Pairwise (· < ·)) (v : ℚ) :
    ∀ j, j < l.length →
      (l.getD j 0 ≤ v ↔ j < l.countP fun b => decide (b ≤ v)) := by
  induction l with
  | nil =>
    intro j hj
    exact absurd hj (by simp)
  | cons x xs ih =>
    rw [List.pairwise_cons] at hl
    intro j hj
    rw [List.countP_cons]
    cases j with
    | zero =>
      rw [List.getD_cons_zero]
      constructor
      · intro hx
        rw [decide_eq_true hx]
        simp
      · intro hc
        by_contra hx
        rw [decide_eq_false hx] at hc
        simp only [Bool.false_eq_true, if_false, Nat.add_zero] at hc
        obtain ⟨a, ha, hav⟩ := List.countP_pos_iff.mp hc
        exact hx (le_of_lt (lt_of_lt_of_le (hl.1 a ha) (of_decide_eq_true hav)))
    | succ j' =>
      rw [List.getD_cons_succ]
      have hj' : j' < xs.length := by simpa using hj
      rw [ih hl.2 j' hj']
      constructor
      · intro hc
        have hpos : 0 < xs.countP fun b => decide (b ≤ v) := by omega
        obtain ⟨a, ha, hav⟩ := List.countP_pos_iff.mp hpos
        have hxv : x ≤ v :=
          le_of_lt (lt_of_lt_of_le (hl.1 a ha) (of_decide_eq_true hav))
        rw [decide_eq_true hxv]
        simp only [if_true]
        omega
      · intro hc
        have hle : (if (decide (x ≤ v)) = true then 1 else 0) ≤ 1 := by
          split_ifs <;> omega
        split_ifs at hc <;> omega

/-- The right-insertion index minus one is the largest position whose
boundary is at most the query. -/
theorem searchsorted_largest (l : List ℚ) (hl : l.Pairwise (· < ·)) (v : ℚ)
    (hpos : 0 < searchsorted_right l v) :
    searchsorted_right l v - 1 < l.length
    ∧ l.getD (searchsorted_right l v - 1) 0 ≤ v
    ∧ ∀ j', j' < l.length → l.getD j' 0 ≤ v → j' ≤ searchsorted_right l v - 1 := by
  have hle : searchsorted_right l v ≤ l.length := List.countP_le_length _
  refine ⟨by omega, ?_, ?_⟩
  · exact (sorted_getD_le_iff l hl v (searchsorted_right l v - 1) (by omega)).mpr
      (by simp only [searchsorted_right] at hpos ⊢; omega)
  · intro j' hj' hlev
    have hcount := (sorted_getD_le_iff l hl v j' hj').mp hlev
    simp only [searchsorted_right] at hcount ⊢
    omega

/-- Claim C3: a build from `N` strictly time-ascending records with
window `w` produces exactly `N − 2w` intervals; for each centre
`i ∈ [w, N−w)` the offset is `t_i` and the boundary is
`t_i − (t_i − t_{i−1})/2`; the boundaries are strictly ascending; and the
evaluator's index (right-insertion search minus one) is the largest `j`
with `begin[j] ≤ τ` for every in-range query — in particular a query
exactly on `begin[j]` uses the interval starting at `begin[j]`. -/
theorem intervals_c3 (polyfit : ℕ → List ℚ → List Vec3 → List Vec3)
    (std : List Vec3 → Vec3) (records : List Record) (window degree : ℕ)
    (pp : PiecewisePolynomial) (hw : 1 ≤ window)
    (hasc : strictlyAscending records)
    (hpp : narrowed_records_to_piecewise_polynomial polyfit std records window degree
      = .ok pp) :
    pp.offset.length = records.length - 2 * window
    ∧ pp.begin.length = records.length - 2 * window
    ∧ (∀ i, window ≤ i → i < records.length - window →
        pp.offset.getD (i - window) 0 = t_rel records i
        ∧ pp.begin.getD (i - window) 0
            = t_rel records i - (t_rel records i - t_rel records (i - 1)) / 2)
    ∧ (∀ j, j + 1 < pp.begin.length → pp.begin.getD j 0 < pp.begin.getD (j + 1) 0)
    ∧ (∀ q : ℤ, pp.minimum_time ≤ q → q < pp.maximum_time →
        searchsorted_right pp.begin (total_seconds q pp.reference_time) - 1
            < pp.begin.length
        ∧ pp.begin.getD
            (searchsorted_right pp.begin (total_seconds q pp.reference_time) - 1) 0
            ≤ total_seconds q pp.reference_time
        ∧ ∀ j', j' < pp.begin.length →
            pp.begin.getD j' 0 ≤ total_seconds q pp.reference_time →
            j' ≤ searchsorted_right pp.begin (total_seconds q pp.reference_time) - 1) := by
  obtain ⟨hd, hn, hppe⟩ :=
    (narrowed_ok_iff polyfit std records window degree pp).mp hpp
  subst hppe
  have hofflen : (build_unchecked polyfit std records window degree).offset.length
      = records.length - 2 * window := by
    rw [build_offset_def,
      sliceL_length _ _ _ (by rw [relative_record_time_length]; omega)]
    omega
  have hbeglen : (build_unchecked polyfit std records window degree).begin.length
      = records.length - 2 * window := by
    rw [build_begin_def, List.length_zipWith,
      sliceL_length _ _ _ (by rw [relative_record_time_length]; omega),
      sliceL_length _ _ _ (by rw [diffL_length, relative_record_time_length]; omega)]
    omega
  have hlocal : ∀ j, j + 1 < records.length - 2 * window →
      (build_unchecked polyfit std records window degree).begin.getD j 0
        < (build_unchecked polyfit std records window degree).begin.getD (j + 1) 0 := by
    intro j hj
    rw [build_begin_getD polyfit std records window degree hw (by omega) j (by omega),
      build_begin_getD polyfit std records window degree hw (by omega) (j + 1) hj]
    have e1 : window + (j + 1) - 1 = window + j := by omega
    rw [e1]
    have m1 : t_rel records (window + j - 1) < t_rel records (window + j) :=
      t_rel_lt records hasc _ _ (by omega) (by omega)
    have m2 : t_rel records (window + j) < t_rel records (window + (j + 1)) :=
      t_rel_lt records hasc _ _ (by omega) (by omega)
    linarith
  refine ⟨hofflen, hbeglen, ?_, ?_, ?_⟩
  · intro i hwi hiN
    have ei : window + (i - window) = i := by omega
    constructor
    · rw [build_offset_getD polyfit std records window degree (by omega) (i - window)
        (by omega), ei]
    · rw [build_begin_getD polyfit std records window degree hw (by omega) (i - window)
        (by omega), ei]
  · intro j hj
    rw [hbeglen] at hj
    exact hlocal j hj
  · intro q hq _hqmax
    have hq' : (records.getD window (mkRecord 0 vzero)).time ≤ q := hq
    have htau : t_rel records window
        ≤ total_seconds q
            (build_unchecked polyfit std records window degree).reference_time :=
      total_seconds_mono ((records.getD window (mkRecord 0 vzero)).time) q
        (first_time records) hq'
    have hpair : (build_unchecked polyfit std records window degree).begin.Pairwise
        (· < ·) := by
      refine pairwise_lt_of_local _ ?_
      intro j hj
      rw [hbeglen] at hj
      exact hlocal j hj
    have hbeg0 : (build_unchecked polyfit std records window degree).begin.getD 0 0
        ≤ total_seconds q
            (build_unchecked polyfit std records window degree).reference_time := by
      rw [build_begin_getD polyfit std records window degree hw (by omega) 0 (by omega)]
      have m : t_rel records (window + 0 - 1) < t_rel records (window + 0) :=
        t_rel_lt records hasc _ _ (by omega) (by omega)
      have e0 : window + 0 = window := by omega
      rw [e0] at m ⊢
      linarith
    have hpos : 0 < searchsorted_right
        (build_unchecked polyfit std records window degree).begin
        (total_seconds q
          (build_unchecked polyfit std records window degree).reference_time) := by
      have h0 := (sorted_getD_le_iff _ hpair _ 0 (by rw [hbeglen]; omega)).mp hbeg0
      simpa [searchsorted_right] using h0
    exact searchsorted_largest _ hpair _ hpos

/-- Claim C3, witness: concrete instantiation of the theorem (projecting
the interval-count conjunct). -/
theorem intervals_c3_witness :
    (build_unchecked stubPolyfit stubStd recsNoVel 1 1).offset.length
      = recsNoVel.length - 2 * 1 :=
  (intervals_c3 stubPolyfit stubStd recsNoVel 1 1
      (build_unchecked stubPolyfit stubStd recsNoVel 1 1) (by omega)
      (by norm_num [strictlyAscending, recsNoVel, List.pairwise_cons, mkRecord])
      rfl).1

end Sp3
